import Mathlib

/-!
# p2p-REST: tracker registry and stop-and-wait file transfer

A shallow embedding of `src/server.js`, `src/network.js` and `src/client.js`.

* JavaScript numbers that hold integers are `Nat` or `Int`; timestamps are the
  millisecond values of `Date.getTime()`.
* A `Buffer` is a list of bytes.
* Object identity of the entries of `registeredClients` (what `indexOf` compares)
  is the field `ref`.
* What a handler passes to `socket.send` is recorded as a `Datagram`.
-/

namespace P2P

/-! ## Data model -/

abbrev Byte := Fin 256

abbrev Buffer := List Byte

/-- An entry of the `resources` list of a client (`registerNewClient`). -/
structure Resource where
  fileName : String
  hash : String
  size : Nat
  address : String
  port : Nat
deriving DecidableEq, Repr

/-- An entry of the payload of `FETCH_RESOURCES_RESPONSE`. -/
structure ResourceInfo where
  fileName : String
  size : Nat
  hash : String
deriving DecidableEq, Repr

/-- An entry of the payload of `REGISTER`, as produced by `hashFile`. -/
structure FileEntry where
  file : String
  size : Nat
  hash : String
deriving DecidableEq, Repr

/-- An element of `registeredClients`. `ref` is the identity of the JavaScript
object; `lastRefresh` is `lastRefresh.getTime()`. -/
structure Client where
  ref : Nat
  address : String
  port : Nat
  lastRefresh : Int
  resources : List Resource
deriving DecidableEq, Repr

/-- The messages the tracker and the peers send. A payload that is `undefined`
in JavaScript is `none`. -/
inductive Message where
  | REGISTER_RESPONSE
  | REFRESH_RESPONSE
  | FETCH_RESOURCES_RESPONSE (payload : List ResourceInfo)
  | RESOURCE_REQUEST_RESPONSE (payload : Option Resource)
  | FILE_REQUEST (fileName : String) (hash : String)
  | FILE_SECTION (offset : Int) (total : Int) (data : String)
  | FILE_SECTION_RECEIVED (payload : Int)
deriving DecidableEq, Repr

/-- One call `socket.send(Buffer.from(JSON.stringify(msg)), port, address, _)`. -/
structure Datagram where
  msg : Message
  port : Nat
  address : String
deriving DecidableEq, Repr

/-- An exception thrown by the JavaScript code. -/
inductive JsError where
  | typeError (what : String)
deriving DecidableEq, Repr

/-! ## `Array.prototype.forEach`

The length is read once, before the first call; an index that is no longer in
the array when its turn comes is skipped. The array lives in the state `σ`, so
the body may change it while the loop runs. -/

def forEachLoop {σ α : Type} (arr : σ → List α) (body : α → Nat → σ → σ) :
    Nat → Nat → σ → σ
  | 0, _, s => s
  | n + 1, k, s =>
    match (arr s)[k]? with
    | none => forEachLoop arr body n (k + 1) s
    | some x => forEachLoop arr body n (k + 1) (body x k s)

def forEach {σ α : Type} (arr : σ → List α) (body : α → Nat → σ → σ) (s : σ) : σ :=
  forEachLoop arr body (arr s).length 0 s

/-! ## server.js -/

/-- The tracker: `registeredClients` and what was handed to `server.send`. -/
structure Server where
  registeredClients : List Client
  outbox : List Datagram
deriving DecidableEq, Repr

/-- The function `sendMessage` of network.js, as far as the datagram goes: the
message is handed to `socket.send` for `address:port`. Its callback, when there
is one, runs once the datagram was sent without error; the callbacks that only
log a line are left out, the one of `sendResourceInfo` is
`sendResourceInfoCallback`. -/
def sendMessage (outbox : List Datagram) (msg : Message) (port : Nat) (address : String) :
    List Datagram :=
  outbox ++ [{ msg := msg, port := port, address := address }]

/-- The function `registerNewClient`; `now` is `new Date()` and `ref` the
identity of the object literal `newClient`. -/
def registerNewClient (s : Server) (ref : Nat) (now : Int) (payload : List FileEntry)
    (address : String) (port : Nat) : Server :=
  let resources := payload.map fun file =>
    ({ fileName := file.file, hash := file.hash, size := file.size,
       address := address, port := port } : Resource)
  let newClient : Client :=
    { ref := ref, address := address, port := port, lastRefresh := now, resources := resources }
  { registeredClients := s.registeredClients ++ [newClient]
    outbox := sendMessage s.outbox Message.REGISTER_RESPONSE port address }

/-- The method `registeredClients.indexOf(client)`: the first index holding the same
object, or `-1`. -/
def indexOf (arr : List Client) (client : Client) : Int :=
  match arr.findIdx? (fun c => c.ref == client.ref) with
  | some i => (i : Int)
  | none => -1

/-- The call `arr.splice(start, 1)`: a negative `start` counts from the end. -/
def splice1 (arr : List Client) (start : Int) : List Client :=
  let len : Int := arr.length
  let actualStart : Int := if start < 0 then max (len + start) 0 else min start len
  arr.eraseIdx actualStart.toNat

/-- The function `removeClient`. -/
def removeClient (registeredClients : List Client) (client : Client) : List Client :=
  splice1 registeredClients (indexOf registeredClients client)

/-- The test `Math.floor(timeSinceLastRefresh) > 10` of `checkConnectedClients`. -/
def inactive (now : Int) (client : Client) : Bool :=
  decide (Int.fdiv (now - client.lastRefresh) 1000 > 10)

/-- The body of the interval of `checkConnectedClients`; `now` is `new Date()`. -/
def checkConnectedClients (now : Int) (registeredClients : List Client) : List Client :=
  forEach (fun arr => arr)
    (fun client _ arr => if inactive now client then removeClient arr client else arr)
    registeredClients

/-- The function `filterResourcesFromClient`: the loop state is the array
`registeredClients`, which the body leaves alone, and the local `resources`. -/
def filterResourcesFromClient (registeredClients : List Client) (address : String)
    (port : Nat) : List Resource :=
  (forEach (fun s : List Client × List Resource => s.1)
    (fun client _ s =>
      if client.address ≠ address ∨ client.port ≠ port then (s.1, s.2 ++ client.resources)
      else s)
    (registeredClients, [])).2

/-- The payload of `RESOURCE_REQUEST` as far as `sendResourceInfo` reads it. -/
structure RequestedFile where
  fileName : String
  hash : String
deriving DecidableEq, Repr

/-- The callback `sendResourceInfo` passes to `sendMessage`, which runs once the
datagram has been sent without error: it reads `file.fileName`. -/
def sendResourceInfoCallback (file : Option Resource) (address : String) (port : Nat) :
    Except JsError String :=
  match file with
  | none => Except.error (JsError.typeError "Cannot read property fileName of undefined")
  | some f =>
    Except.ok ("Sending info for \"" ++ f.fileName ++ "\" to " ++ address ++ ":" ++
      toString port ++ ".")

/-- The function `sendResourceInfo`: the new tracker state and the outcome of the
send callback. -/
def sendResourceInfo (s : Server) (requestedFile : RequestedFile) (address : String)
    (port : Nat) : Server × Except JsError String :=
  let filteredResources := filterResourcesFromClient s.registeredClients address port
  let file := filteredResources.find? fun resource =>
    resource.fileName == requestedFile.fileName && resource.hash == requestedFile.hash
  ({ s with outbox :=
       sendMessage s.outbox (Message.RESOURCE_REQUEST_RESPONSE file) port address },
   sendResourceInfoCallback file address port)

/-- The function `refreshClient`; `now` is `new Date()`. -/
def refreshClient (s : Server) (now : Int) (address : String) (port : Nat) : Server :=
  forEach (fun s : Server => s.registeredClients)
    (fun client index s =>
      if client.address = address ∧ client.port = port then
        { registeredClients :=
            s.registeredClients.modify (fun c => { c with lastRefresh := now }) index
          outbox := sendMessage s.outbox Message.REFRESH_RESPONSE port address }
      else s)
    s


/-! ## Buffers and base64 (Node) -/

def base64Alphabet : List Char :=
  "ABCDEFGHIJKLMNOPQRSTUVWXYZabcdefghijklmnopqrstuvwxyz0123456789+/".toList

/-- The character of a six-bit value. -/
def base64Char (n : Nat) : Char := base64Alphabet.getD n 'A'

def byteOfNat (n : Nat) : Byte := ⟨n % 256, Nat.mod_lt _ (by decide)⟩

/-- The characters of `buffer.toString` in base64: three bytes give four
characters, and a last group of one or two bytes is padded with `=`. -/
def toBase64Chars : List Byte → List Char
  | [] => []
  | [a] => [base64Char (a.val / 4), base64Char (a.val % 4 * 16), '=', '=']
  | [a, b] =>
    [base64Char (a.val / 4), base64Char (a.val % 4 * 16 + b.val / 16),
      base64Char (b.val % 16 * 4), '=']
  | a :: b :: c :: rest =>
    base64Char (a.val / 4) :: base64Char (a.val % 4 * 16 + b.val / 16)
      :: base64Char (b.val % 16 * 4 + c.val / 64) :: base64Char (c.val % 64)
      :: toBase64Chars rest

/-- The call `data.toString` with the encoding base64. -/
def toBase64 (data : Buffer) : String := String.mk (toBase64Chars data)

/-- The bytes of a sequence of six-bit values. -/
def fromBase64Values : List Nat → List Byte
  | s0 :: s1 :: s2 :: s3 :: rest =>
    byteOfNat (s0 * 4 + s1 / 16) :: byteOfNat (s1 % 16 * 16 + s2 / 4)
      :: byteOfNat (s2 % 4 * 64 + s3) :: fromBase64Values rest
  | [s0, s1, s2] => [byteOfNat (s0 * 4 + s1 / 16), byteOfNat (s1 % 16 * 16 + s2 / 4)]
  | [s0, s1] => [byteOfNat (s0 * 4 + s1 / 16)]
  | _ => []

/-- The UTF-16 code units of a character of a JavaScript string. -/
def utf16Units (c : Char) : List Nat :=
  if c.toNat < 65536 then [c.toNat]
  else [55296 + (c.toNat - 65536) / 1024, 56320 + (c.toNat - 65536) % 1024]

/-- The table `unbase64` of Node, which the decoder applies to the low byte of a
code unit: the letters, the digits, `+` and `-` for 62, `/` and `_` for 63; every
other byte has no value. -/
def unbase64 (unit : Nat) : Option Nat :=
  let b := unit % 256
  if 65 ≤ b ∧ b ≤ 90 then some (b - 65)
  else if 97 ≤ b ∧ b ≤ 122 then some (b - 71)
  else if 48 ≤ b ∧ b ≤ 57 then some (b + 4)
  else if b = 43 ∨ b = 45 then some 62
  else if b = 47 ∨ b = 95 then some 63
  else none

/-- The decoder of Node on the code units of a string: it reads the low byte of
every code unit, stops at the first `=`, and skips a byte without a value. -/
def decodeBase64Units (units : List Nat) : Buffer :=
  fromBase64Values ((units.takeWhile (fun u => u % 256 != 61)).filterMap unbase64)

/-- The call `Buffer.from` with the encoding base64. -/
def fromBase64 (data : String) : Buffer :=
  decodeBase64Units (data.toList.flatMap utf16Units)

/-! ## network.js -/

/-- The constant `packetSize` of `sendFile`. -/
def packetSize : Nat := 44 * 1024

/-- The value `Math.ceil(a / b)` for non-negative integers `a` and `b > 0`. For
`b = 45056` and `a` below `2 ^ 53` the quotient in double precision is less than
`1 / b` away from `a / b`, so its ceiling is that of `a / b`; `mathCeilDiv_eq_ceil`
relates the definition to the ceiling of the rational quotient. -/
def mathCeilDiv (a b : Nat) : Nat := (a + b - 1) / b

/-- The chunks a read stream of a regular file emits: every read fills
`highWaterMark` bytes until the file ends, and the end of the file emits no chunk. -/
def readChunks (highWaterMark : Nat) : Nat → Buffer → List Buffer
  | 0, _ => []
  | fuel + 1, bytes =>
    if bytes = [] then []
    else bytes.take highWaterMark :: readChunks highWaterMark fuel (bytes.drop highWaterMark)

/-- The chunks of `fs.createReadStream(filePath, { highWaterMark })`. -/
def createReadStream (file : Buffer) (highWaterMark : Nat) : List Buffer :=
  readChunks highWaterMark file.length file

/-- The object `fileData` of `sendFile`. -/
structure FileData where
  count : Nat
  total : Nat
  fileSizeInBytes : Nat
deriving DecidableEq, Repr

/-- The object `currentStatus` of `sendFile`; `msg` is `undefined` until the first
chunk is read. -/
structure CurrentStatus where
  waiting : Bool
  msg : Option Message
deriving DecidableEq, Repr

/-- The state of one call of `sendFile`:
the destination, `fileData`, `currentStatus`, the read stream (the chunks it has
not emitted yet, whether it flows, whether it was closed), whether the listener
of `received` is registered, the clock in milliseconds, the deadlines of the
pending `setTimeout` callbacks, and the datagrams handed to `socket.send`. -/
structure Sender where
  port : Nat
  address : String
  fileData : FileData
  currentStatus : CurrentStatus
  pending : List Buffer
  flowing : Bool
  closed : Bool
  listening : Bool
  now : Nat
  timers : List Nat
  sent : List Datagram
deriving DecidableEq, Repr

/-- The synchronous part of `sendFile`: `file` is the content of the file and
`now` the time of the call. Adding the listener of `data` starts the stream. -/
def sendFile (file : Buffer) (port : Nat) (address : String) (now : Nat) : Sender :=
  let fileSizeInBytes := file.length
  { port := port
    address := address
    fileData :=
      { count := 0, total := mathCeilDiv fileSizeInBytes packetSize,
        fileSizeInBytes := fileSizeInBytes }
    currentStatus := { waiting := false, msg := none }
    pending := createReadStream file packetSize
    flowing := true
    closed := false
    listening := true
    now := now
    timers := []
    sent := [] }

/-- The call `sendMessage(socket, currentStatus.msg, port, address)`. While
`currentStatus.msg` is `undefined` nothing can be serialised and nothing is sent. -/
def sendStatusMsg (s : Sender) : List Datagram :=
  match s.currentStatus.msg with
  | some msg => sendMessage s.sent msg s.port s.address
  | none => s.sent

/-- The function `sendCurrent`: send, set `waiting`, arm one timer of 10 s. -/
def sendCurrent (s : Sender) : Sender :=
  { s with
    sent := sendStatusMsg s
    currentStatus := { s.currentStatus with waiting := true }
    timers := s.timers ++ [s.now + 10000] }

/-- The callback `sendCurrent` passes to `setTimeout`. -/
def timeoutCallback (s : Sender) : Sender :=
  if s.currentStatus.waiting then { s with sent := sendStatusMsg s } else s

/-- The listener of `data` on the file stream. -/
def onData (data : Buffer) (s : Sender) : Sender :=
  let b64Data := toBase64 data
  let offset := s.fileData.count
  let total := s.fileData.total
  let s1 := { s with
    currentStatus := { s.currentStatus with
      msg := some (Message.FILE_SECTION (offset : Int) (total : Int) b64Data) } }
  let s2 := sendCurrent s1
  { s2 with flowing := false }

/-- The listener of `received` on `EventHandler`. -/
def onReceived (offset : Int) (s : Sender) : Sender :=
  if offset = (s.fileData.count : Int) then
    if offset = (s.fileData.total : Int) - 1 then
      { s with
        currentStatus := { s.currentStatus with waiting := false }
        listening := false
        closed := true }
    else
      { s with
        fileData := { s.fileData with count := s.fileData.count + 1 }
        currentStatus := { s.currentStatus with waiting := false }
        flowing := true }
  else s

/-- The read stream emits its next chunk, when it flows, is open and has one. -/
def streamEmit (s : Sender) : Sender :=
  if s.flowing ∧ ¬ s.closed then
    match s.pending with
    | [] => s
    | data :: rest => onData data { s with pending := rest }
  else s

/-- Modelled from the spec: the module `./EventHandler`, which is not among the
sources, is the event emitter on which `sendFile` registers the listener of
`received` and on which `handleFileSectionReceived` emits the acknowledged
offset; `removeAllListeners` ends the delivery. -/
def emitReceived (offset : Int) (s : Sender) : Sender :=
  if s.listening then onReceived offset s else s

/-- The function `handleFileSectionReceived` of client.js. -/
def handleFileSectionReceived (payload : Int) (s : Sender) : Sender :=
  emitReceived payload s

/-- The clock advances by `ms` milliseconds: the timers that are due run, in the
order in which they were armed. -/
def advance (ms : Nat) (s : Sender) : Sender :=
  let now := s.now + ms
  let due := s.timers.filter (fun deadline => decide (deadline ≤ now))
  let s1 := { s with now := now, timers := s.timers.filter (fun deadline => !decide (deadline ≤ now)) }
  due.foldl (fun st _ => timeoutCallback st) s1

/-! ## client.js -/

/-- The object `requestFile`; `null` is `none`. -/
structure RequestFile where
  name : Option String
  hash : Option String
  address : Option String
  port : Option Nat
  data : List Buffer
deriving DecidableEq, Repr

/-- The receiving side of a peer: `requestFile`, the datagrams handed to
`client.send`, the files `createFile` wrote to the downloads folder, and the
messages given to `togglePrompt`. -/
structure Peer where
  requestFile : RequestFile
  sent : List Datagram
  downloads : List (String × Buffer)
  prompts : List String
deriving DecidableEq, Repr

/-- The function `handleResourceRequest`: the payload is the resource of the owner. -/
def handleResourceRequest (p : Peer) (payload : Resource) : Peer :=
  { p with
    requestFile :=
      { name := some payload.fileName, hash := some payload.hash,
        address := some payload.address, port := some payload.port, data := [] }
    sent := sendMessage p.sent (Message.FILE_REQUEST payload.fileName payload.hash)
      payload.port payload.address }

/-- The function `createFile` of fileReader.js: the file written and the value
returned; `hashOf` is the md5 digest `hashFile` computes of the written file. -/
def createFile (hashOf : Buffer → String) (fileName : String) (data : Buffer)
    (hash : Option String) : (String × Buffer) × Bool :=
  ((fileName, data),
    match hash with
    | some h => if h = "" then false else decide (h = hashOf data)
    | none => false)

/-- The function `handleFileSection`; `address` and `port` are those of `info`,
and `bufferFrom` is the call `Buffer.from` of Node with the encoding base64. -/
def handleFileSection (hashOf : Buffer → String) (bufferFrom : String → Buffer) (p : Peer)
    (offset total : Int)
    (data : String) (address : String) (port : Nat) : Peer :=
  let dataBuffer := bufferFrom data
  let requestFile := { p.requestFile with data := p.requestFile.data ++ [dataBuffer] }
  let sent := sendMessage p.sent (Message.FILE_SECTION_RECEIVED offset) port address
  if offset = total - 1 then
    let fileData := requestFile.data.flatten
    match requestFile.name with
    | some name =>
      let written := createFile hashOf name fileData requestFile.hash
      let same :=
        if written.2 then "\nDownload successfull." else "\nDownloaded file has different hash."
      { requestFile := requestFile, sent := sent
        downloads := p.downloads ++ [written.1], prompts := p.prompts ++ [same] }
    | none => { p with requestFile := requestFile, sent := sent }
  else { p with requestFile := requestFile, sent := sent }

/-! ## A transfer over a network that delivers every datagram once, in order -/

/-- The function `handleMessageReceived` of client.js on the receiving peer, for
a datagram that arrived from `address:port`: during a transfer only
`FILE_SECTION` arrives there, and `fromBase64` is the decoder of the peer. -/
def peerReceive (hashOf : Buffer → String) (address : String) (port : Nat) (p : Peer)
    (d : Datagram) : Peer :=
  match d.msg with
  | Message.FILE_SECTION offset total data =>
    handleFileSection hashOf fromBase64 p offset total data address port
  | _ => p

/-- The function `handleMessageReceived` of client.js on the sending peer: during
a transfer only `FILE_SECTION_RECEIVED` arrives there. -/
def senderReceive (s : Sender) (d : Datagram) : Sender :=
  match d.msg with
  | Message.FILE_SECTION_RECEIVED payload => handleFileSectionReceived payload s
  | _ => s

/-- One round: the stream emits a chunk, the peer receives what the sender sent
in this round, and the sender receives what the peer sent in reply, before any
timer runs. `address:port` is the endpoint of the sender. -/
def exchange (hashOf : Buffer → String) (address : String) (port : Nat)
    (st : Sender × Peer) : Sender × Peer :=
  let s1 := streamEmit st.1
  let p1 := (s1.sent.drop st.1.sent.length).foldl (peerReceive hashOf address port) st.2
  let s2 := (p1.sent.drop st.2.sent.length).foldl senderReceive s1
  (s2, p1)

/-- The download of a resource: the peer handles the answer of the tracker and
sends `FILE_REQUEST`, the owner starts `sendFile`, and the rounds follow, as
many as `fileData.total`. -/
def transfer (hashOf : Buffer → String) (file : Buffer) (owner : Resource) (p : Peer)
    (peerAddress : String) (peerPort : Nat) (now : Nat) : Sender × Peer :=
  let p0 := handleResourceRequest p owner
  let s0 := sendFile file peerPort peerAddress now
  (exchange hashOf owner.address owner.port)^[s0.fileData.total] (s0, p0)

/-- One round when time passes: `idle` milliseconds before the stream emits the
next chunk, and `wait` milliseconds between the sending of the fragment and the
arrival of its acknowledgement. The peer receives the fragment once; the copies
the timers send while the sender waits are lost. -/
def exchangeTimed (hashOf : Buffer → String) (address : String) (port : Nat)
    (idle wait : Nat) (st : Sender × Peer) : Sender × Peer :=
  let s0 := advance idle st.1
  let s1 := streamEmit s0
  let p1 := (s1.sent.drop s0.sent.length).foldl (peerReceive hashOf address port) st.2
  let s2 := advance wait s1
  let s3 := (p1.sent.drop st.2.sent.length).foldl senderReceive s2
  (s3, p1)

/-- The rounds `i`, `i + 1`, ... of a transfer, `n` of them, with the delays
`delay i` of round `i`. -/
def runTimed (hashOf : Buffer → String) (address : String) (port : Nat)
    (delay : Nat → Nat × Nat) : Nat → Nat → Sender × Peer → Sender × Peer
  | 0, _, st => st
  | n + 1, i, st =>
    runTimed hashOf address port delay n (i + 1)
      (exchangeTimed hashOf address port (delay i).1 (delay i).2 st)

/-- The download of a resource as in `transfer`, with the delays `delay i` in
round `i`. -/
def transferTimed (hashOf : Buffer → String) (file : Buffer) (owner : Resource) (p : Peer)
    (peerAddress : String) (peerPort : Nat) (now : Nat) (delay : Nat → Nat × Nat) :
    Sender × Peer :=
  let p0 := handleResourceRequest p owner
  let s0 := sendFile file peerPort peerAddress now
  runTimed hashOf owner.address owner.port delay s0.fileData.total 0 (s0, p0)

/-! ## Auxiliary definitions for the statements -/

/-- A client of another endpoint than `address:port`, as `filterResourcesFromClient` tests. -/
def otherEndpoint (address : String) (port : Nat) (c : Client) : Bool :=
  decide (c.address ≠ address ∨ c.port ≠ port)

/-- What `refreshClient` does to one record. -/
def refreshed (now : Int) (address : String) (port : Nat) (c : Client) : Client :=
  if c.address = address ∧ c.port = port then { c with lastRefresh := now } else c

/-- The records of `address:port`, as `refreshClient` tests. -/
def sameEndpoint (address : String) (port : Nat) (c : Client) : Bool :=
  decide (c.address = address ∧ c.port = port)

/-- Every resource of the registry carries the endpoint of the record that holds
it, as `registerNewClient` builds it. -/
def resourcesTagged (registeredClients : List Client) : Prop :=
  ∀ c ∈ registeredClients, ∀ r ∈ c.resources, r.address = c.address ∧ r.port = c.port

/-- The `FILE_SECTION` datagrams for the chunks `chunks`, numbered from `offset`. -/
def fragmentDatagrams (total : Nat) (port : Nat) (address : String) :
    Nat → List Buffer → List Datagram
  | _, [] => []
  | offset, chunk :: rest =>
    ⟨Message.FILE_SECTION (offset : Int) (total : Int) (toBase64 chunk), port, address⟩
      :: fragmentDatagrams total port address (offset + 1) rest

/-- The prompt `handleFileSection` gives once the file is written. -/
def downloadPrompt (hashOf : Buffer → String) (fileName : String) (fileData : Buffer)
    (hash : Option String) : String :=
  if (createFile hashOf fileName fileData hash).2 then "\nDownload successfull."
  else "\nDownloaded file has different hash."

/-! ## Concrete inputs -/

/-- A peer at 10.0.0.1:5000 that last refreshed at time 0. -/
def peerA : Client :=
  { ref := 1, address := "10.0.0.1", port := 5000, lastRefresh := 0,
    resources := [{ fileName := "a.txt", hash := "ha", size := 10,
                    address := "10.0.0.1", port := 5000 }] }

/-- A peer at 10.0.0.2:5000 that last refreshed at time 0. -/
def peerB : Client :=
  { ref := 2, address := "10.0.0.2", port := 5000, lastRefresh := 0,
    resources := [{ fileName := "b.txt", hash := "hb", size := 20,
                    address := "10.0.0.2", port := 5000 }] }

/-- A peer at 10.0.0.3:5000 that last refreshed at time 15000. -/
def peerC : Client :=
  { ref := 3, address := "10.0.0.3", port := 5000, lastRefresh := 15000, resources := [] }

/-- A file of three bytes. -/
def sampleFile : Buffer := [1, 2, 3]

/-- A stand-in for the md5 digest in concrete runs. -/
def sampleHash (data : Buffer) : String := toString (data.map Fin.val).sum

/-- The resource record of `sampleFile` at its owner 10.0.0.1:5000. -/
def sampleOwner : Resource :=
  { fileName := "f.txt", hash := "6", size := 3, address := "10.0.0.1", port := 5000 }

/-- A peer that has requested nothing yet. -/
def idlePeer : Peer :=
  { requestFile := { name := none, hash := none, address := none, port := none, data := [] }
    sent := [], downloads := [], prompts := [] }

/-- A sender of a file of three fragments whose first fragment was acknowledged
and whose second fragment is in flight. -/
def senderAtOne : Sender :=
  { port := 6000, address := "10.0.0.2"
    fileData := { count := 1, total := 3, fileSizeInBytes := 100000 }
    currentStatus := { waiting := true, msg := some (Message.FILE_SECTION 1 3 "AQID") }
    pending := [[7]], flowing := false, closed := false, listening := true
    now := 500, timers := [10000, 10500], sent := [] }

/-! # Lemmas -/

/-! ### General facts on `forEachLoop` and lists -/

theorem forEachLoop_of_length_le {σ α : Type} (arr : σ → List α) (body : α → Nat → σ → σ) :
    ∀ (n k : Nat) (s : σ), (arr s).length ≤ k → forEachLoop arr body n k s = s := by
  intro n
  induction n with
  | zero => intro k s _; rfl
  | succ n ih =>
    intro k s hk
    rw [forEachLoop, List.getElem?_eq_none_iff.mpr hk]
    exact ih (k + 1) s (Nat.le_succ_of_le hk)

theorem getElem?_length_append_cons {α : Type} (pre : List α) (x : α) (rest : List α) :
    (pre ++ x :: rest)[pre.length]? = some x := by
  induction pre with
  | nil => simp
  | cons a pre ih => simpa using ih

theorem modify_length_append_cons {α : Type} (f : α → α) (pre : List α) (x : α)
    (rest : List α) : (pre ++ x :: rest).modify f pre.length = pre ++ f x :: rest := by
  induction pre with
  | nil => rfl
  | cons a pre ih => simpa using ih

theorem eraseIdx_length_append_cons {α : Type} (pre : List α) (x : α) (rest : List α) :
    (pre ++ x :: rest).eraseIdx pre.length = pre ++ rest := by
  induction pre with
  | nil => rfl
  | cons a pre ih => simpa using ih


/-! ## The loops of server.js in closed form -/

theorem filterLoop_eq (address : String) (port : Nat) (reg : List Client) :
    ∀ (n k : Nat) (res : List Resource),
      forEachLoop (fun s : List Client × List Resource => s.1)
        (fun client _ s =>
          if client.address ≠ address ∨ client.port ≠ port then (s.1, s.2 ++ client.resources)
          else s) n k (reg, res)
      = (reg, res ++ (((reg.drop k).take n).filter (otherEndpoint address port)).flatMap
          Client.resources) := by
  intro n
  induction n with
  | zero => intro k res; simp [forEachLoop]
  | succ n ih =>
    intro k res
    rw [forEachLoop]
    cases h : reg[k]? with
    | none =>
      have hk : reg.length ≤ k := List.getElem?_eq_none_iff.mp h
      simp only [h]
      rw [ih, List.drop_eq_nil_of_le hk, List.drop_eq_nil_of_le (Nat.le_succ_of_le hk)]
      simp
    | some x =>
      obtain ⟨hk, hx⟩ := List.getElem?_eq_some_iff.mp h
      simp only [h]
      rw [List.drop_eq_getElem_cons hk, hx, List.take_succ_cons]
      by_cases hc : x.address ≠ address ∨ x.port ≠ port
      · rw [if_pos hc, ih]
        simp [List.filter_cons, otherEndpoint, hc]
      · rw [if_neg hc, ih]
        simp [List.filter_cons, otherEndpoint, hc]

theorem filterResourcesFromClient_eq (reg : List Client) (address : String) (port : Nat) :
    filterResourcesFromClient reg address port
      = (reg.filter (otherEndpoint address port)).flatMap Client.resources := by
  unfold filterResourcesFromClient forEach
  rw [filterLoop_eq]
  simp

/-! ### `refreshClient` -/

theorem refreshLoop_eq (now : Int) (address : String) (port : Nat) :
    ∀ (n : Nat) (pre rest : List Client) (outbox : List Datagram),
      forEachLoop (fun s : Server => s.registeredClients)
        (fun client index s =>
          if client.address = address ∧ client.port = port then
            { registeredClients :=
                s.registeredClients.modify (fun c => { c with lastRefresh := now }) index
              outbox := sendMessage s.outbox Message.REFRESH_RESPONSE port address }
          else s) n pre.length { registeredClients := pre ++ rest, outbox := outbox }
      = { registeredClients := pre ++ (rest.take n).map (refreshed now address port)
            ++ rest.drop n
          outbox := outbox ++ List.replicate ((rest.take n).countP (sameEndpoint address port))
            { msg := Message.REFRESH_RESPONSE, port := port, address := address } } := by
  intro n
  induction n with
  | zero => intro pre rest outbox; simp [forEachLoop]
  | succ n ih =>
    intro pre rest outbox
    cases rest with
    | nil =>
      rw [forEachLoop_of_length_le _ _ _ _ _ (by simp)]
      simp
    | cons x rest =>
      rw [forEachLoop]
      simp only [getElem?_length_append_cons]
      have hlen : pre.length + 1 = (pre ++ [refreshed now address port x]).length := by simp
      by_cases hc : x.address = address ∧ x.port = port
      · rw [if_pos hc]
        simp only [modify_length_append_cons]
        have hx : refreshed now address port x = { x with lastRefresh := now } := by
          simp [refreshed, hc]
        have hr : pre ++ { x with lastRefresh := now } :: rest
            = (pre ++ [refreshed now address port x]) ++ rest := by simp [hx]
        rw [hr, hlen, ih]
        simp [sendMessage, sameEndpoint, hc, List.replicate_succ]
      · rw [if_neg hc]
        have hx : refreshed now address port x = x := by simp [refreshed, hc]
        have hr : pre ++ x :: rest = (pre ++ [refreshed now address port x]) ++ rest := by
          simp [hx]
        rw [hr, hlen, ih]
        simp [sameEndpoint, hc]

theorem refreshClient_eq (s : Server) (now : Int) (address : String) (port : Nat) :
    refreshClient s now address port
      = { registeredClients := s.registeredClients.map (refreshed now address port)
          outbox := s.outbox ++ List.replicate
            (s.registeredClients.countP (sameEndpoint address port))
            { msg := Message.REFRESH_RESPONSE, port := port, address := address } } := by
  unfold refreshClient forEach
  have h := refreshLoop_eq now address port s.registeredClients.length [] s.registeredClients
    s.outbox
  simp only [List.length_nil, List.nil_append, List.take_length, List.drop_length,
    List.append_nil] at h
  exact h

/-! ### `checkConnectedClients` -/

theorem exists_split_of_getElem? {α : Type} {arr : List α} {k : Nat} {x : α}
    (h : arr[k]? = some x) : ∃ pre rest, arr = pre ++ x :: rest ∧ pre.length = k := by
  obtain ⟨hk, hx⟩ := List.getElem?_eq_some_iff.mp h
  refine ⟨arr.take k, arr.drop (k + 1), ?_, ?_⟩
  · rw [← hx, ← List.drop_eq_getElem_cons hk, List.take_append_drop]
  · rw [List.length_take]; omega

theorem indexOf_eq_of_nodup {arr : List Client} {k : Nat} {x : Client}
    (hid : (arr.map Client.ref).Nodup) (h : arr[k]? = some x) : indexOf arr x = (k : Int) := by
  obtain ⟨hk, hx⟩ := List.getElem?_eq_some_iff.mp h
  have hfind : arr.findIdx? (fun c => c.ref == x.ref) = some k := by
    rw [List.findIdx?_eq_some_iff_getElem]
    refine ⟨hk, by simp [hx], ?_⟩
    intro j hj
    have hjk : j < arr.length := Nat.lt_trans hj hk
    have hj1 : j < (arr.map Client.ref).length := by simpa using hjk
    have hk1 : k < (arr.map Client.ref).length := by simpa using hk
    have hne : (arr.map Client.ref)[j] ≠ (arr.map Client.ref)[k] := by
      intro heq
      have := (hid.getElem_inj_iff).mp heq
      omega
    simp only [List.getElem_map, hx] at hne
    simpa using hne
  simp [indexOf, hfind]

theorem removeClient_eq_eraseIdx {arr : List Client} {k : Nat} {x : Client}
    (hid : (arr.map Client.ref).Nodup) (h : arr[k]? = some x) :
    removeClient arr x = arr.eraseIdx k := by
  obtain ⟨hk, _⟩ := List.getElem?_eq_some_iff.mp h
  unfold removeClient splice1
  rw [indexOf_eq_of_nodup hid h]
  have h1 : ¬ ((k : Int) < 0) := by omega
  have h2 : min (k : Int) (arr.length : Int) = (k : Int) := by omega
  simp only [h1, if_false, h2, Int.toNat_ofNat]

/-- The sweep removes nothing but inactive records: the records it does not
judge inactive are the same, in the same order, before and after, and the
result is a sublist of the registry. -/
theorem sweepLoop_frame (now : Int) :
    ∀ (n k : Nat) (arr : List Client), (arr.map Client.ref).Nodup →
      ((forEachLoop (fun arr : List Client => arr)
          (fun client _ arr => if inactive now client then removeClient arr client else arr)
          n k arr).filter (fun c => !inactive now c)
        = arr.filter (fun c => !inactive now c)) ∧
      (forEachLoop (fun arr : List Client => arr)
          (fun client _ arr => if inactive now client then removeClient arr client else arr)
          n k arr).Sublist arr := by
  intro n
  induction n with
  | zero => intro k arr _; exact ⟨rfl, List.Sublist.refl _⟩
  | succ n ih =>
    intro k arr hid
    rw [forEachLoop]
    cases h : arr[k]? with
    | none => exact ih (k + 1) arr hid
    | some x =>
      simp only [h]
      by_cases hx : inactive now x = true
      · rw [if_pos hx, removeClient_eq_eraseIdx hid h]
        have hsub : (arr.eraseIdx k).Sublist arr := List.eraseIdx_sublist arr k
        have hid2 : ((arr.eraseIdx k).map Client.ref).Nodup :=
          List.Nodup.sublist (hsub.map Client.ref) hid
        obtain ⟨hf, hs⟩ := ih (k + 1) (arr.eraseIdx k) hid2
        refine ⟨?_, hs.trans hsub⟩
        rw [hf]
        obtain ⟨pre, rest, harr, hlen⟩ := exists_split_of_getElem? h
        subst hlen
        rw [harr, eraseIdx_length_append_cons]
        simp [List.filter_cons, hx]
      · rw [if_neg hx]
        exact ih (k + 1) arr hid

/-! ### base64 -/

theorem base64Char_units (n : Nat) (h : n < 64) :
    utf16Units (base64Char n) = [(base64Char n).toNat] := by
  have key : ∀ m : Fin 64, utf16Units (base64Char m.val) = [(base64Char m.val).toNat] := by
    decide
  exact key ⟨n, h⟩

theorem unbase64_base64Char (n : Nat) (h : n < 64) :
    unbase64 (base64Char n).toNat = some n := by
  have key : ∀ m : Fin 64, unbase64 (base64Char m.val).toNat = some m.val := by decide
  exact key ⟨n, h⟩

theorem base64Char_ne_pad (n : Nat) (h : n < 64) :
    ((base64Char n).toNat % 256 != 61) = true := by
  have key : ∀ m : Fin 64, ((base64Char m.val).toNat % 256 != 61) = true := by decide
  exact key ⟨n, h⟩

theorem byteOfNat_val (a : Byte) : byteOfNat a.val = a := by
  apply Fin.ext
  simp [byteOfNat, Nat.mod_eq_of_lt a.isLt]

theorem pad_units : utf16Units '=' = [61] := by decide

/-- Decoding the characters of an encoding gives the bytes back. -/
theorem decodeBase64Units_toBase64Chars :
    ∀ bytes : List Byte,
      decodeBase64Units ((toBase64Chars bytes).flatMap utf16Units) = bytes
  | [] => by simp [toBase64Chars, decodeBase64Units, fromBase64Values]
  | [a] => by
    have ha := a.isLt
    have h0 : a.val / 4 < 64 := by omega
    have h1 : a.val % 4 * 16 < 64 := by omega
    have e : byteOfNat (a.val / 4 * 4 + a.val % 4 * 16 / 16) = a := by
      rw [← byteOfNat_val a]; congr 1; simp only [byteOfNat_val]; omega
    have hp : ((61 : Nat) % 256 != 61) = false := by decide
    simp only [toBase64Chars, decodeBase64Units, List.flatMap_cons, List.flatMap_nil,
      base64Char_units _ h0, base64Char_units _ h1, pad_units, List.cons_append,
      List.nil_append, List.append_nil, List.takeWhile_cons, base64Char_ne_pad _ h0,
      base64Char_ne_pad _ h1, hp, if_true, List.filterMap_cons, List.filterMap_nil,
      unbase64_base64Char _ h0, unbase64_base64Char _ h1, fromBase64Values, e]
  | [a, b] => by
    have ha := a.isLt
    have hb := b.isLt
    have h0 : a.val / 4 < 64 := by omega
    have h1 : a.val % 4 * 16 + b.val / 16 < 64 := by omega
    have h2 : b.val % 16 * 4 < 64 := by omega
    have e1 : byteOfNat (a.val / 4 * 4 + (a.val % 4 * 16 + b.val / 16) / 16) = a := by
      rw [← byteOfNat_val a]; congr 1; simp only [byteOfNat_val]; omega
    have e2 : byteOfNat ((a.val % 4 * 16 + b.val / 16) % 16 * 16 + b.val % 16 * 4 / 4) = b := by
      rw [← byteOfNat_val b]; congr 1; simp only [byteOfNat_val]; omega
    have hp : ((61 : Nat) % 256 != 61) = false := by decide
    simp only [toBase64Chars, decodeBase64Units, List.flatMap_cons, List.flatMap_nil,
      base64Char_units _ h0, base64Char_units _ h1, base64Char_units _ h2, pad_units,
      List.cons_append, List.nil_append, List.append_nil, List.takeWhile_cons,
      base64Char_ne_pad _ h0, base64Char_ne_pad _ h1, base64Char_ne_pad _ h2, hp, if_true,
      List.filterMap_cons, List.filterMap_nil, unbase64_base64Char _ h0,
      unbase64_base64Char _ h1, unbase64_base64Char _ h2, fromBase64Values, e1, e2]
  | a :: b :: c :: rest => by
    have ha := a.isLt
    have hb := b.isLt
    have hc := c.isLt
    have h0 : a.val / 4 < 64 := by omega
    have h1 : a.val % 4 * 16 + b.val / 16 < 64 := by omega
    have h2 : b.val % 16 * 4 + c.val / 64 < 64 := by omega
    have h3 : c.val % 64 < 64 := by omega
    have e1 : byteOfNat (a.val / 4 * 4 + (a.val % 4 * 16 + b.val / 16) / 16) = a := by
      rw [← byteOfNat_val a]; congr 1; simp only [byteOfNat_val]; omega
    have e2 : byteOfNat ((a.val % 4 * 16 + b.val / 16) % 16 * 16
        + (b.val % 16 * 4 + c.val / 64) / 4) = b := by
      rw [← byteOfNat_val b]; congr 1; simp only [byteOfNat_val]; omega
    have e3 : byteOfNat ((b.val % 16 * 4 + c.val / 64) % 4 * 64 + c.val % 64) = c := by
      rw [← byteOfNat_val c]; congr 1; simp only [byteOfNat_val]; omega
    have ih := decodeBase64Units_toBase64Chars rest
    unfold decodeBase64Units at ih
    simp only [toBase64Chars, decodeBase64Units, List.flatMap_cons,
      base64Char_units _ h0, base64Char_units _ h1, base64Char_units _ h2,
      base64Char_units _ h3, List.cons_append, List.nil_append, List.takeWhile_cons,
      base64Char_ne_pad _ h0, base64Char_ne_pad _ h1, base64Char_ne_pad _ h2,
      base64Char_ne_pad _ h3, if_true, List.filterMap_cons, unbase64_base64Char _ h0,
      unbase64_base64Char _ h1, unbase64_base64Char _ h2, unbase64_base64Char _ h3,
      fromBase64Values, e1, e2, e3, ih]

theorem fromBase64_toBase64 (data : Buffer) : fromBase64 (toBase64 data) = data := by
  unfold fromBase64 toBase64
  exact decodeBase64Units_toBase64Chars data

/-! ### Fragmentation -/

theorem mathCeilDiv_eq_ceil (a b : Nat) (hb : 0 < b) :
    mathCeilDiv a b = ⌈(a : ℚ) / (b : ℚ)⌉₊ := by
  unfold mathCeilDiv
  have hbq : (0 : ℚ) < (b : ℚ) := by exact_mod_cast hb
  have hdm := Nat.div_add_mod (a + b - 1) b
  have hmod := Nat.mod_lt (a + b - 1) hb
  apply le_antisymm
  · rcases Nat.eq_zero_or_pos ((a + b - 1) / b) with h0 | hpos
    · rw [h0]; exact Nat.zero_le _
    · have hlt : (a + b - 1) / b - 1 < ⌈(a : ℚ) / (b : ℚ)⌉₊ := by
        rw [Nat.lt_ceil, lt_div_iff₀ hbq]
        have hnat : ((a + b - 1) / b - 1) * b < a := by
          have : ((a + b - 1) / b - 1) * b = b * ((a + b - 1) / b) - b := by
            rw [Nat.sub_mul, Nat.one_mul, Nat.mul_comm]
          rw [this]
          have hge : b ≤ b * ((a + b - 1) / b) := Nat.le_mul_of_pos_right b hpos
          omega
        exact_mod_cast hnat
      omega
  · rw [Nat.ceil_le, div_le_iff₀ hbq]
    have hnat : a ≤ (a + b - 1) / b * b := by
      rw [Nat.mul_comm]; omega
    exact_mod_cast hnat

theorem mathCeilDiv_zero (b : Nat) (hb : 0 < b) : mathCeilDiv 0 b = 0 := by
  unfold mathCeilDiv
  exact Nat.div_eq_of_lt (by omega)

theorem mathCeilDiv_step (a b : Nat) (hb : 0 < b) (ha : 0 < a) :
    mathCeilDiv a b = mathCeilDiv (a - b) b + 1 := by
  unfold mathCeilDiv
  have h1 : a + b - 1 = (a - 1) + b := by omega
  rw [h1, Nat.add_div_right _ hb]
  congr 1
  rcases Nat.lt_or_ge b a with h | h
  · congr 1; omega
  · rw [Nat.div_eq_of_lt (by omega), Nat.div_eq_of_lt (by omega)]

theorem readChunks_flatten (hwm : Nat) (hpos : 0 < hwm) :
    ∀ (fuel : Nat) (bytes : Buffer), bytes.length ≤ fuel →
      (readChunks hwm fuel bytes).flatten = bytes := by
  intro fuel
  induction fuel with
  | zero =>
    intro bytes h
    have : bytes = [] := List.length_eq_zero.mp (Nat.le_zero.mp h)
    simp [readChunks, this]
  | succ fuel ih =>
    intro bytes h
    unfold readChunks
    by_cases hb : bytes = []
    · simp [hb]
    · rw [if_neg hb]
      have hlen : 0 < bytes.length := List.length_pos.mpr hb
      rw [List.flatten_cons, ih (bytes.drop hwm) (by rw [List.length_drop]; omega),
        List.take_append_drop]

theorem readChunks_length (hwm : Nat) (hpos : 0 < hwm) :
    ∀ (fuel : Nat) (bytes : Buffer), bytes.length ≤ fuel →
      (readChunks hwm fuel bytes).length = mathCeilDiv bytes.length hwm := by
  intro fuel
  induction fuel with
  | zero =>
    intro bytes h
    have : bytes = [] := List.length_eq_zero.mp (Nat.le_zero.mp h)
    simp [readChunks, this, mathCeilDiv_zero hwm hpos]
  | succ fuel ih =>
    intro bytes h
    unfold readChunks
    by_cases hb : bytes = []
    · simp [hb, mathCeilDiv_zero hwm hpos]
    · rw [if_neg hb]
      have hlen : 0 < bytes.length := List.length_pos.mpr hb
      rw [List.length_cons, ih (bytes.drop hwm) (by rw [List.length_drop]; omega),
        List.length_drop, ← mathCeilDiv_step _ _ hpos hlen]

theorem readChunks_bounds (hwm : Nat) (hpos : 0 < hwm) :
    ∀ (fuel : Nat) (bytes : Buffer),
      ∀ chunk ∈ readChunks hwm fuel bytes, 0 < chunk.length ∧ chunk.length ≤ hwm := by
  intro fuel
  induction fuel with
  | zero => intro bytes chunk h; simp [readChunks] at h
  | succ fuel ih =>
    intro bytes chunk h
    unfold readChunks at h
    by_cases hb : bytes = []
    · simp [hb] at h
    · rw [if_neg hb] at h
      have hlen : 0 < bytes.length := List.length_pos.mpr hb
      rcases List.mem_cons.mp h with h | h
      · subst h
        rw [List.length_take]
        omega
      · exact ih _ chunk h

/-! ### One exchange of the transfer -/

theorem exchange_eq (hashOf : Buffer → String) (address : String) (port : Nat)
    (s : Sender) (p : Peer) (data : Buffer) (rest : List Buffer)
    (hflow : s.flowing = true) (hclosed : s.closed = false) (hlisten : s.listening = true)
    (hpending : s.pending = data :: rest) :
    exchange hashOf address port (s, p)
      = (onReceived (s.fileData.count : Int) (onData data { s with pending := rest }),
         handleFileSection hashOf fromBase64 p (s.fileData.count : Int) (s.fileData.total : Int)
           (toBase64 data) address port) := by
  have hemit : streamEmit s = onData data { s with pending := rest } := by
    simp [streamEmit, hflow, hclosed, hpending]
  have hsent : (onData data { s with pending := rest }).sent
      = s.sent ++ [⟨Message.FILE_SECTION (s.fileData.count : Int) (s.fileData.total : Int)
          (toBase64 data), s.port, s.address⟩] := by
    simp [onData, sendCurrent, sendStatusMsg, sendMessage]
  have hlisten2 : (onData data { s with pending := rest }).listening = true := by
    simp [onData, sendCurrent, hlisten]
  have hpsent : (handleFileSection hashOf fromBase64 p (s.fileData.count : Int) (s.fileData.total : Int)
      (toBase64 data) address port).sent
      = p.sent ++ [⟨Message.FILE_SECTION_RECEIVED (s.fileData.count : Int), port, address⟩] := by
    unfold handleFileSection
    simp only [sendMessage]
    split
    · split <;> rfl
    · rfl
  unfold exchange
  simp only [hemit, hsent, List.drop_left, List.foldl_cons, List.foldl_nil, peerReceive, hpsent,
    senderReceive, handleFileSectionReceived, emitReceived, hlisten2, if_true]

theorem onReceived_onData_next (s : Sender) (data : Buffer)
    (h : ¬ ((s.fileData.count : Int) = (s.fileData.total : Int) - 1)) :
    onReceived (s.fileData.count : Int) (onData data s)
      = { s with
          fileData := { s.fileData with count := s.fileData.count + 1 }
          currentStatus :=
            { waiting := false,
              msg := some (Message.FILE_SECTION (s.fileData.count : Int)
                (s.fileData.total : Int) (toBase64 data)) }
          flowing := true
          timers := s.timers ++ [s.now + 10000]
          sent := s.sent ++ [⟨Message.FILE_SECTION (s.fileData.count : Int)
            (s.fileData.total : Int) (toBase64 data), s.port, s.address⟩] } := by
  simp [onReceived, onData, sendCurrent, sendStatusMsg, sendMessage, h]

theorem onReceived_onData_last (s : Sender) (data : Buffer)
    (h : (s.fileData.count : Int) = (s.fileData.total : Int) - 1) :
    onReceived (s.fileData.count : Int) (onData data s)
      = { s with
          currentStatus :=
            { waiting := false,
              msg := some (Message.FILE_SECTION (s.fileData.count : Int)
                (s.fileData.total : Int) (toBase64 data)) }
          flowing := false
          closed := true
          listening := false
          timers := s.timers ++ [s.now + 10000]
          sent := s.sent ++ [⟨Message.FILE_SECTION (s.fileData.count : Int)
            (s.fileData.total : Int) (toBase64 data), s.port, s.address⟩] } := by
  simp [onReceived, onData, sendCurrent, sendStatusMsg, sendMessage, h]

theorem handleFileSection_next (hashOf : Buffer → String) (p : Peer) (offset total : Int)
    (data : String) (address : String) (port : Nat) (h : ¬ (offset = total - 1)) :
    handleFileSection hashOf fromBase64 p offset total data address port
      = { p with
          requestFile := { p.requestFile with data := p.requestFile.data ++ [fromBase64 data] }
          sent := p.sent ++ [⟨Message.FILE_SECTION_RECEIVED offset, port, address⟩] } := by
  simp [handleFileSection, sendMessage, h]

theorem handleFileSection_last (hashOf : Buffer → String) (p : Peer) (offset total : Int)
    (data : String) (address : String) (port : Nat) (fileName : String)
    (h : offset = total - 1) (hname : p.requestFile.name = some fileName) :
    handleFileSection hashOf fromBase64 p offset total data address port
      = { requestFile := { p.requestFile with data := p.requestFile.data ++ [fromBase64 data] }
          sent := p.sent ++ [⟨Message.FILE_SECTION_RECEIVED offset, port, address⟩]
          downloads := p.downloads
            ++ [(fileName, (p.requestFile.data ++ [fromBase64 data]).flatten)]
          prompts := p.prompts ++ [downloadPrompt hashOf fileName
            (p.requestFile.data ++ [fromBase64 data]).flatten p.requestFile.hash] } := by
  simp [handleFileSection, sendMessage, h, hname, downloadPrompt, createFile]

theorem exchange_iterate (hashOf : Buffer → String) (address : String) (port : Nat)
    (fileName : String) (hash : Option String) (downloads : List (String × Buffer))
    (prompts : List String) :
    ∀ (rest pre : List Buffer) (s : Sender) (p : Peer), rest ≠ [] →
      s.pending = rest → s.flowing = true → s.closed = false → s.listening = true →
      s.fileData.count = pre.length → s.fileData.total = pre.length + rest.length →
      p.requestFile.data = pre → p.requestFile.name = some fileName →
      p.requestFile.hash = hash → p.downloads = downloads → p.prompts = prompts →
      ((exchange hashOf address port)^[rest.length] (s, p)).2.requestFile.data
          = pre ++ rest.map (fun c => fromBase64 (toBase64 c)) ∧
      ((exchange hashOf address port)^[rest.length] (s, p)).2.downloads
          = downloads ++ [(fileName, (pre ++ rest.map (fun c => fromBase64 (toBase64 c))).flatten)] ∧
      ((exchange hashOf address port)^[rest.length] (s, p)).2.prompts
          = prompts ++ [downloadPrompt hashOf fileName
              (pre ++ rest.map (fun c => fromBase64 (toBase64 c))).flatten hash] ∧
      ((exchange hashOf address port)^[rest.length] (s, p)).1.closed = true ∧
      ((exchange hashOf address port)^[rest.length] (s, p)).1.fileData.count + 1
          = pre.length + rest.length ∧
      ((exchange hashOf address port)^[rest.length] (s, p)).1.fileData.total
          = s.fileData.total ∧
      ((exchange hashOf address port)^[rest.length] (s, p)).1.sent
          = s.sent ++ fragmentDatagrams s.fileData.total s.port s.address pre.length rest := by
  intro rest
  induction rest with
  | nil => intro pre s p h; exact absurd rfl h
  | cons data rest ih =>
    intro pre s p _ hpending hflow hclosed hlisten hcount htotal hdata hname hhash hdl hpr
    rw [List.length_cons, Function.iterate_succ_apply,
      exchange_eq hashOf address port s p data rest hflow hclosed hlisten hpending]
    cases rest with
    | nil =>
      have hlast : (s.fileData.count : Int) = (s.fileData.total : Int) - 1 := by
        rw [hcount, htotal]; simp
      have hlast2 : (({ s with pending := [] } : Sender).fileData.count : Int)
          = (({ s with pending := [] } : Sender).fileData.total : Int) - 1 := hlast
      have e1 := onReceived_onData_last { s with pending := [] } data hlast2
      have e2 := handleFileSection_last hashOf p (s.fileData.count : Int)
        (s.fileData.total : Int) (toBase64 data) address port fileName hlast hname
      simp only [] at e1
      rw [e1, e2]
      simp [hdata, hhash, hdl, hpr, hcount, fragmentDatagrams]
    | cons data2 rest =>
      have hnot : ¬ ((s.fileData.count : Int) = (s.fileData.total : Int) - 1) := by
        rw [hcount, htotal]; simp only [List.length_cons]; push_cast; omega
      have hnot2 : ¬ ((({ s with pending := data2 :: rest } : Sender).fileData.count : Int)
          = (({ s with pending := data2 :: rest } : Sender).fileData.total : Int) - 1) := hnot
      have e1 := onReceived_onData_next { s with pending := data2 :: rest } data hnot2
      have e2 := handleFileSection_next hashOf p (s.fileData.count : Int)
        (s.fileData.total : Int) (toBase64 data) address port hnot
      simp only [] at e1
      rw [e1, e2]
      have h := ih (pre ++ [fromBase64 (toBase64 data)])
        { s with
          pending := data2 :: rest
          fileData := { s.fileData with count := s.fileData.count + 1 }
          currentStatus :=
            { waiting := false,
              msg := some (Message.FILE_SECTION (s.fileData.count : Int)
                (s.fileData.total : Int) (toBase64 data)) }
          flowing := true
          timers := s.timers ++ [s.now + 10000]
          sent := s.sent ++ [⟨Message.FILE_SECTION (s.fileData.count : Int)
            (s.fileData.total : Int) (toBase64 data), s.port, s.address⟩] }
        { p with
          requestFile :=
            { p.requestFile with data := p.requestFile.data ++ [fromBase64 (toBase64 data)] }
          sent := p.sent ++ [⟨Message.FILE_SECTION_RECEIVED (s.fileData.count : Int), port,
            address⟩] }
        (by simp) rfl rfl hclosed hlisten
        (by simp [hcount])
        (by simp [htotal]; omega)
        (by simp [hdata]) hname hhash hdl hpr
      simpa [Nat.add_assoc, Nat.add_comm 1, fragmentDatagrams, hcount] using h

/-! ### The transfer when time passes -/

theorem timeoutCallback_fold_frame (l : List Nat) :
    ∀ s : Sender,
      (l.foldl (fun st _ => timeoutCallback st) s).fileData = s.fileData ∧
      (l.foldl (fun st _ => timeoutCallback st) s).currentStatus = s.currentStatus ∧
      (l.foldl (fun st _ => timeoutCallback st) s).pending = s.pending ∧
      (l.foldl (fun st _ => timeoutCallback st) s).flowing = s.flowing ∧
      (l.foldl (fun st _ => timeoutCallback st) s).closed = s.closed ∧
      (l.foldl (fun st _ => timeoutCallback st) s).listening = s.listening ∧
      (s.currentStatus.waiting = false →
        (l.foldl (fun st _ => timeoutCallback st) s).sent = s.sent) := by
  induction l with
  | nil => intro s; exact ⟨rfl, rfl, rfl, rfl, rfl, rfl, fun _ => rfl⟩
  | cons a l ih =>
    intro s
    rw [List.foldl_cons]
    obtain ⟨h1, h2, h3, h4, h5, h6, h7⟩ := ih (timeoutCallback s)
    have t : (timeoutCallback s).fileData = s.fileData ∧
        (timeoutCallback s).currentStatus = s.currentStatus ∧
        (timeoutCallback s).pending = s.pending ∧ (timeoutCallback s).flowing = s.flowing ∧
        (timeoutCallback s).closed = s.closed ∧ (timeoutCallback s).listening = s.listening ∧
        (s.currentStatus.waiting = false → (timeoutCallback s).sent = s.sent) := by
      unfold timeoutCallback
      split
      · refine ⟨rfl, rfl, rfl, rfl, rfl, rfl, ?_⟩
        intro hw; simp_all
      · exact ⟨rfl, rfl, rfl, rfl, rfl, rfl, fun _ => rfl⟩
    obtain ⟨t1, t2, t3, t4, t5, t6, t7⟩ := t
    refine ⟨h1.trans t1, h2.trans t2, h3.trans t3, h4.trans t4, h5.trans t5, h6.trans t6, ?_⟩
    intro hw
    rw [h7 (by rw [t2]; exact hw), t7 hw]

/-- Time that passes changes the clock, the pending timers and, while the sender
waits, the datagrams sent; nothing else. -/
theorem advance_frame (ms : Nat) (s : Sender) :
    (advance ms s).fileData = s.fileData ∧
    (advance ms s).currentStatus = s.currentStatus ∧
    (advance ms s).pending = s.pending ∧
    (advance ms s).flowing = s.flowing ∧
    (advance ms s).closed = s.closed ∧
    (advance ms s).listening = s.listening ∧
    (s.currentStatus.waiting = false → (advance ms s).sent = s.sent) := by
  unfold advance
  exact timeoutCallback_fold_frame _ _

theorem exchangeTimed_eq (hashOf : Buffer → String) (address : String) (port : Nat)
    (idle wait : Nat) (s : Sender) (p : Peer) (data : Buffer) (rest : List Buffer)
    (hflow : s.flowing = true) (hclosed : s.closed = false) (hlisten : s.listening = true)
    (hpending : s.pending = data :: rest) :
    exchangeTimed hashOf address port idle wait (s, p)
      = (onReceived (s.fileData.count : Int)
          (advance wait (onData data { advance idle s with pending := rest })),
         handleFileSection hashOf fromBase64 p (s.fileData.count : Int) (s.fileData.total : Int)
           (toBase64 data) address port) := by
  obtain ⟨a1, a2, a3, a4, a5, a6, a7⟩ := advance_frame idle s
  have hemit : streamEmit (advance idle s)
      = onData data { advance idle s with pending := rest } := by
    simp [streamEmit, a4, a5, a3, hflow, hclosed, hpending]
  have hsent : (onData data { advance idle s with pending := rest }).sent
      = (advance idle s).sent ++ [⟨Message.FILE_SECTION (s.fileData.count : Int)
          (s.fileData.total : Int) (toBase64 data), (advance idle s).port,
          (advance idle s).address⟩] := by
    simp [onData, sendCurrent, sendStatusMsg, sendMessage, a1]
  have hlisten2 : (advance wait (onData data { advance idle s with pending := rest })).listening
      = true := by
    rw [(advance_frame wait _).2.2.2.2.2.1]
    simp [onData, sendCurrent, a6, hlisten]
  have hpsent : (handleFileSection hashOf fromBase64 p (s.fileData.count : Int) (s.fileData.total : Int)
      (toBase64 data) address port).sent
      = p.sent ++ [⟨Message.FILE_SECTION_RECEIVED (s.fileData.count : Int), port, address⟩] :=
    by
    unfold handleFileSection
    simp only [sendMessage]
    split
    · split <;> rfl
    · rfl
  unfold exchangeTimed
  simp only [hemit, hsent, List.drop_left, List.foldl_cons, List.foldl_nil, peerReceive, hpsent,
    senderReceive, handleFileSectionReceived, emitReceived, hlisten2, if_true]

theorem exchangeTimed_sender_next (idle wait : Nat) (s : Sender) (data : Buffer)
    (rest : List Buffer)
    (h : ¬ ((s.fileData.count : Int) = (s.fileData.total : Int) - 1))
    (hclosed : s.closed = false) (hlisten : s.listening = true) :
    (onReceived (s.fileData.count : Int)
        (advance wait (onData data { advance idle s with pending := rest }))).fileData
      = { s.fileData with count := s.fileData.count + 1 } ∧
    (onReceived (s.fileData.count : Int)
        (advance wait (onData data { advance idle s with pending := rest }))).pending = rest ∧
    (onReceived (s.fileData.count : Int)
        (advance wait (onData data { advance idle s with pending := rest }))).flowing = true ∧
    (onReceived (s.fileData.count : Int)
        (advance wait (onData data { advance idle s with pending := rest }))).closed = false ∧
    (onReceived (s.fileData.count : Int)
        (advance wait (onData data { advance idle s with pending := rest }))).listening
      = true := by
  obtain ⟨a1, _, _, _, a5, a6, _⟩ := advance_frame idle s
  obtain ⟨b1, _, b3, _, b5, b6, _⟩ :=
    advance_frame wait (onData data { advance idle s with pending := rest })
  have c1 : (onData data { advance idle s with pending := rest }).fileData = s.fileData := by
    simp [onData, sendCurrent, a1]
  have hcount : (s.fileData.count : Int)
      = ((advance wait (onData data { advance idle s with pending := rest })).fileData.count
          : Int) := by rw [b1, c1]
  have hnot : ¬ ((s.fileData.count : Int)
      = ((advance wait (onData data { advance idle s with pending := rest })).fileData.total
          : Int) - 1) := by rw [b1, c1]; exact h
  unfold onReceived
  rw [if_pos hcount, if_neg hnot]
  refine ⟨?_, ?_, rfl, ?_, ?_⟩
  · simp only [b1, c1]
  · simp only [b3]; simp [onData, sendCurrent]
  · simp only [b5]; simp [onData, sendCurrent, a5, hclosed]
  · simp only [b6]; simp [onData, sendCurrent, a6, hlisten]

theorem exchangeTimed_sender_last (idle wait : Nat) (s : Sender) (data : Buffer)
    (rest : List Buffer)
    (h : (s.fileData.count : Int) = (s.fileData.total : Int) - 1) :
    (onReceived (s.fileData.count : Int)
        (advance wait (onData data { advance idle s with pending := rest }))).fileData
      = s.fileData ∧
    (onReceived (s.fileData.count : Int)
        (advance wait (onData data { advance idle s with pending := rest }))).closed = true ∧
    (onReceived (s.fileData.count : Int)
        (advance wait (onData data { advance idle s with pending := rest }))).listening
      = false := by
  obtain ⟨a1, _, _, _, _, _, _⟩ := advance_frame idle s
  obtain ⟨b1, _, _, _, _, _, _⟩ :=
    advance_frame wait (onData data { advance idle s with pending := rest })
  have c1 : (onData data { advance idle s with pending := rest }).fileData = s.fileData := by
    simp [onData, sendCurrent, a1]
  have hcount : (s.fileData.count : Int)
      = ((advance wait (onData data { advance idle s with pending := rest })).fileData.count
          : Int) := by rw [b1, c1]
  have hlast : (s.fileData.count : Int)
      = ((advance wait (onData data { advance idle s with pending := rest })).fileData.total
          : Int) - 1 := by rw [b1, c1]; exact h
  unfold onReceived
  rw [if_pos hcount, if_pos hlast]
  exact ⟨by simp only [b1, c1], rfl, rfl⟩

theorem runTimed_reassembles (hashOf : Buffer → String) (address : String) (port : Nat)
    (delay : Nat → Nat × Nat) (fileName : String) (hash : Option String)
    (downloads : List (String × Buffer)) (prompts : List String) :
    ∀ (rest pre : List Buffer) (i : Nat) (s : Sender) (p : Peer), rest ≠ [] →
      s.pending = rest → s.flowing = true → s.closed = false → s.listening = true →
      s.fileData.count = pre.length → s.fileData.total = pre.length + rest.length →
      p.requestFile.data = pre → p.requestFile.name = some fileName →
      p.requestFile.hash = hash → p.downloads = downloads → p.prompts = prompts →
      (runTimed hashOf address port delay rest.length i (s, p)).2.requestFile.data
          = pre ++ rest.map (fun c => fromBase64 (toBase64 c)) ∧
      (runTimed hashOf address port delay rest.length i (s, p)).2.downloads
          = downloads ++ [(fileName, (pre ++ rest.map (fun c => fromBase64 (toBase64 c))).flatten)] ∧
      (runTimed hashOf address port delay rest.length i (s, p)).2.prompts
          = prompts ++ [downloadPrompt hashOf fileName
              (pre ++ rest.map (fun c => fromBase64 (toBase64 c))).flatten hash] ∧
      (runTimed hashOf address port delay rest.length i (s, p)).1.closed = true ∧
      (runTimed hashOf address port delay rest.length i (s, p)).1.fileData.count + 1
          = pre.length + rest.length := by
  intro rest
  induction rest with
  | nil => intro pre i s p h; exact absurd rfl h
  | cons data rest ih =>
    intro pre i s p _ hpending hflow hclosed hlisten hcount htotal hdata hname hhash hdl hpr
    rw [List.length_cons, runTimed,
      exchangeTimed_eq hashOf address port _ _ s p data rest hflow hclosed hlisten hpending]
    cases rest with
    | nil =>
      have hlast : (s.fileData.count : Int) = (s.fileData.total : Int) - 1 := by
        rw [hcount, htotal]; simp
      obtain ⟨e1, e2, _⟩ := exchangeTimed_sender_last (delay i).1 (delay i).2 s data [] hlast
      have e3 := handleFileSection_last hashOf p (s.fileData.count : Int)
        (s.fileData.total : Int) (toBase64 data) address port fileName hlast hname
      simp only [List.length_nil, runTimed]
      rw [e3]
      refine ⟨by simp [hdata], by simp [hdata, hdl], by simp [hdata, hhash, hpr], e2, ?_⟩
      rw [e1, hcount]
    | cons data2 rest =>
      have hnot : ¬ ((s.fileData.count : Int) = (s.fileData.total : Int) - 1) := by
        rw [hcount, htotal]; simp only [List.length_cons]; push_cast; omega
      obtain ⟨e1, e2, e3, e4, e5⟩ := exchangeTimed_sender_next (delay i).1 (delay i).2 s
        data (data2 :: rest) hnot hclosed hlisten
      have e7 := handleFileSection_next hashOf p (s.fileData.count : Int)
        (s.fileData.total : Int) (toBase64 data) address port hnot
      have h := ih (pre ++ [fromBase64 (toBase64 data)]) (i + 1)
        (onReceived (s.fileData.count : Int)
          (advance (delay i).2 (onData data { advance (delay i).1 s with
            pending := data2 :: rest })))
        (handleFileSection hashOf fromBase64 p (s.fileData.count : Int) (s.fileData.total : Int)
          (toBase64 data) address port)
        (by simp) e2 e3 e4 e5
        (by rw [e1]; simp [hcount])
        (by rw [e1]; simp [htotal]; omega)
        (by rw [e7]; simp [hdata]) (by rw [e7]; exact hname) (by rw [e7]; exact hhash)
        (by rw [e7]; exact hdl) (by rw [e7]; exact hpr)
      simpa [Nat.add_assoc, Nat.add_comm 1] using h

/-! # Properties of the tracker and of the transfer -/

/-! ### The tracker -/

theorem sendResourceInfo_no_match (s : Server) (requestedFile : RequestedFile)
    (address : String) (port : Nat)
    (h : ∀ r ∈ filterResourcesFromClient s.registeredClients address port,
      ¬ (r.fileName = requestedFile.fileName ∧ r.hash = requestedFile.hash)) :
    (sendResourceInfo s requestedFile address port).1.outbox
        = s.outbox ++ [⟨Message.RESOURCE_REQUEST_RESPONSE none, port, address⟩] ∧
    (sendResourceInfo s requestedFile address port).2
        = Except.error (JsError.typeError "Cannot read property fileName of undefined") := by
  have hfind : (filterResourcesFromClient s.registeredClients address port).find?
      (fun resource =>
        resource.fileName == requestedFile.fileName && resource.hash == requestedFile.hash)
      = none := by
    rw [List.find?_eq_none]
    intro r hr
    have := h r hr
    simpa using this
  simp [sendResourceInfo, hfind, sendResourceInfoCallback, sendMessage]

theorem registerNewClient_resourcesTagged (s : Server) (ref : Nat) (now : Int)
    (payload : List FileEntry) (address : String) (port : Nat)
    (h : resourcesTagged s.registeredClients) :
    resourcesTagged (registerNewClient s ref now payload address port).registeredClients := by
  intro c hc r hr
  simp only [registerNewClient, List.mem_append, List.mem_singleton] at hc
  rcases hc with hc | hc
  · exact h c hc r hr
  · subst hc
    simp only [List.mem_map] at hr
    obtain ⟨f, _, rfl⟩ := hr
    exact ⟨rfl, rfl⟩

/-! The records of the registry stay distinct objects: `registerNewClient` adds a
new object, `refreshClient` changes a field in place, and the sweep only removes. -/

theorem registerNewClient_nodup (s : Server) (ref : Nat) (now : Int)
    (payload : List FileEntry) (address : String) (port : Nat)
    (hfresh : ∀ c ∈ s.registeredClients, c.ref ≠ ref)
    (h : (s.registeredClients.map Client.ref).Nodup) :
    ((registerNewClient s ref now payload address port).registeredClients.map
      Client.ref).Nodup := by
  simp only [registerNewClient, List.map_append, List.map_cons, List.map_nil]
  rw [List.nodup_append]
  refine ⟨h, by simp, ?_⟩
  intro a ha hb
  simp only [List.mem_singleton] at hb
  subst hb
  obtain ⟨c, hc, hca⟩ := List.mem_map.mp ha
  exact hfresh c hc hca

theorem refreshClient_refs (s : Server) (now : Int) (address : String) (port : Nat) :
    (refreshClient s now address port).registeredClients.map Client.ref
      = s.registeredClients.map Client.ref := by
  rw [refreshClient_eq]
  simp only [List.map_map]
  apply List.map_congr_left
  intro c _
  simp only [Function.comp, refreshed]
  split <;> rfl

theorem checkConnectedClients_nodup (now : Int) (registeredClients : List Client)
    (h : (registeredClients.map Client.ref).Nodup) :
    ((checkConnectedClients now registeredClients).map Client.ref).Nodup :=
  List.Nodup.sublist
    ((sweepLoop_frame now registeredClients.length 0 registeredClients h).2.map Client.ref) h

/-- C5, at a request for a file nobody offers: the tracker holds `peerA`, and
10.0.0.2:6000 asks for `missing.txt`. The answer that is sent has no payload, and
the send callback throws a TypeError when it reads `file.fileName`. -/
theorem sendResourceInfo_not_found_throws :
    sendResourceInfo { registeredClients := [peerA], outbox := [] }
        { fileName := "missing.txt", hash := "0f" } "10.0.0.2" 6000
      = ({ registeredClients := [peerA],
           outbox := [⟨Message.RESOURCE_REQUEST_RESPONSE none, 6000, "10.0.0.2"⟩] },
         Except.error (JsError.typeError "Cannot read property fileName of undefined")) := by
  rfl

/-- C6, at two adjacent inactive records: `peerA` and `peerB` both refreshed
20 s before the sweep. The sweep removes `peerA`, skips the index to which
`peerB` moved, and leaves `peerB`, which is still inactive, in the registry. -/
theorem checkConnectedClients_skips_adjacent :
    checkConnectedClients 20000 [peerA, peerB] = [peerB] ∧
    inactive 20000 peerA = true ∧ inactive 20000 peerB = true ∧
    (20000 : Int) - peerB.lastRefresh > 10000 := by
  decide

/-- C7: when the records of the registry are distinct objects, the sweep keeps
every record refreshed within 10 s of `now`, unchanged and in the same relative
order; the result is a sublist of the registry; and every record that is gone
was refreshed more than 10 s before `now`. -/
theorem checkConnectedClients_keeps_fresh (now : Int) (registeredClients : List Client)
    (hid : (registeredClients.map Client.ref).Nodup) :
    (checkConnectedClients now registeredClients).filter
        (fun c => decide (now - c.lastRefresh ≤ 10000))
      = registeredClients.filter (fun c => decide (now - c.lastRefresh ≤ 10000)) ∧
    (checkConnectedClients now registeredClients).Sublist registeredClients ∧
    (∀ c ∈ registeredClients, c ∉ checkConnectedClients now registeredClients →
      10000 < now - c.lastRefresh) := by
  obtain ⟨hf, hs⟩ := sweepLoop_frame now registeredClients.length 0 registeredClients hid
  have hfresh : ∀ c : Client, now - c.lastRefresh ≤ 10000 → inactive now c = false := by
    intro c hc
    simp only [inactive, decide_eq_false_iff_not, not_lt, gt_iff_lt]
    rw [Int.fdiv_eq_ediv _ (by decide : (0 : Int) ≤ 1000)]
    omega
  have hcomp : ∀ l : List Client,
      l.filter (fun c => decide (now - c.lastRefresh ≤ 10000))
        = (l.filter (fun c => !inactive now c)).filter
            (fun c => decide (now - c.lastRefresh ≤ 10000)) := by
    intro l
    rw [List.filter_filter]
    apply List.filter_congr
    intro c _
    by_cases hc : now - c.lastRefresh ≤ 10000
    · simp [hc, hfresh c hc]
    · simp [hc]
  refine ⟨?_, hs, ?_⟩
  · unfold checkConnectedClients forEach
    rw [hcomp, hf, ← hcomp]
  · intro c hc hnot
    by_contra hle
    have hle2 : now - c.lastRefresh ≤ 10000 := by omega
    have hmem : c ∈ registeredClients.filter (fun c => !inactive now c) := by
      simp [List.mem_filter, hc, hfresh c hle2]
    have hf2 : (checkConnectedClients now registeredClients).filter (fun c => !inactive now c)
        = registeredClients.filter (fun c => !inactive now c) := hf
    rw [← hf2] at hmem
    exact hnot (List.mem_filter.mp hmem).1

/-- C7 at the registry `[peerA, peerC, peerB]` swept at time 20000. -/
theorem checkConnectedClients_keeps_fresh_witness :
    ([peerA, peerC, peerB].map Client.ref).Nodup ∧
    ((checkConnectedClients 20000 [peerA, peerC, peerB]).filter
        (fun c => decide ((20000 : Int) - c.lastRefresh ≤ 10000))
      = [peerA, peerC, peerB].filter (fun c => decide ((20000 : Int) - c.lastRefresh ≤ 10000)) ∧
    (checkConnectedClients 20000 [peerA, peerC, peerB]).Sublist [peerA, peerC, peerB] ∧
    (∀ c ∈ [peerA, peerC, peerB], c ∉ checkConnectedClients 20000 [peerA, peerC, peerB] →
      10000 < (20000 : Int) - c.lastRefresh)) :=
  ⟨by decide, checkConnectedClients_keeps_fresh 20000 [peerA, peerC, peerB] (by decide)⟩

/-- C8: `filterResourcesFromClient` returns the resource lists of the records
whose address or port differs from that of the requester, concatenated in registry
order; a resource is in the result exactly when a record of another endpoint
holds it; and, the resources carrying the endpoint of their record, none of the
own record of the requester is in the result. -/
theorem filterResourcesFromClient_spec (registeredClients : List Client) (address : String)
    (port : Nat) :
    filterResourcesFromClient registeredClients address port
      = (registeredClients.filter
          (fun c => decide (c.address ≠ address ∨ c.port ≠ port))).flatMap Client.resources ∧
    (∀ r, r ∈ filterResourcesFromClient registeredClients address port ↔
      ∃ c ∈ registeredClients, (c.address ≠ address ∨ c.port ≠ port) ∧ r ∈ c.resources) ∧
    (resourcesTagged registeredClients →
      ∀ c ∈ registeredClients, c.address = address → c.port = port →
        ∀ r ∈ c.resources, r ∉ filterResourcesFromClient registeredClients address port) := by
  have heq := filterResourcesFromClient_eq registeredClients address port
  have hiff : ∀ r, r ∈ filterResourcesFromClient registeredClients address port ↔
      ∃ c ∈ registeredClients, (c.address ≠ address ∨ c.port ≠ port) ∧ r ∈ c.resources := by
    intro r
    rw [heq]
    simp only [List.mem_flatMap, List.mem_filter, otherEndpoint, decide_eq_true_eq]
    constructor
    · rintro ⟨c, ⟨hc, hother⟩, hr⟩; exact ⟨c, hc, hother, hr⟩
    · rintro ⟨c, hc, hother, hr⟩; exact ⟨c, ⟨hc, hother⟩, hr⟩
  refine ⟨heq, hiff, ?_⟩
  intro htag c hc haddr hport r hr hmem
  obtain ⟨c2, hc2, hother, hr2⟩ := (hiff r).mp hmem
  obtain ⟨ha, hp⟩ := htag c hc r hr
  obtain ⟨ha2, hp2⟩ := htag c2 hc2 r hr2
  rcases hother with h | h
  · exact h (by rw [← ha2, ha, haddr])
  · exact h (by rw [← hp2, hp, hport])

/-- C8 at the registry `[peerA, peerB, peerC]` and the requester 10.0.0.1:5000. -/
theorem filterResourcesFromClient_spec_witness :
    resourcesTagged [peerA, peerB, peerC] ∧
    filterResourcesFromClient [peerA, peerB, peerC] "10.0.0.1" 5000 = peerB.resources ∧
    (∀ c ∈ [peerA, peerB, peerC], c.address = "10.0.0.1" → c.port = 5000 →
      ∀ r ∈ c.resources, r ∉ filterResourcesFromClient [peerA, peerB, peerC] "10.0.0.1" 5000) :=
  have htag : resourcesTagged [peerA, peerB, peerC] := by
    intro c hc r hr
    simp only [List.mem_cons, List.mem_singleton, List.not_mem_nil, or_false] at hc
    rcases hc with rfl | rfl | rfl
    · simp only [peerA, List.mem_singleton] at hr; subst hr; exact ⟨rfl, rfl⟩
    · simp only [peerB, List.mem_singleton] at hr; subst hr; exact ⟨rfl, rfl⟩
    · simp [peerC] at hr
  ⟨htag, by decide,
    (filterResourcesFromClient_spec [peerA, peerB, peerC] "10.0.0.1" 5000).2.2 htag⟩

/-- C9: `refreshClient` sets `lastRefresh` to `now` in every record of the
endpoint and leaves every other record, and every other field, as it was; it
sends one `REFRESH_RESPONSE` to the endpoint for each such record and nothing
else; so with no record of the endpoint the tracker state is unchanged, and with
one at least one `REFRESH_RESPONSE` is sent. -/
theorem refreshClient_heartbeat (s : Server) (now : Int) (address : String) (port : Nat) :
    ((∀ c ∈ s.registeredClients, ¬ (c.address = address ∧ c.port = port)) →
      refreshClient s now address port = s) ∧
    (refreshClient s now address port).registeredClients
      = s.registeredClients.map (fun c =>
          if c.address = address ∧ c.port = port then { c with lastRefresh := now } else c) ∧
    (refreshClient s now address port).outbox
      = s.outbox ++ List.replicate
          (s.registeredClients.countP (fun c => decide (c.address = address ∧ c.port = port)))
          ⟨Message.REFRESH_RESPONSE, port, address⟩ ∧
    ((∃ c ∈ s.registeredClients, c.address = address ∧ c.port = port) →
      0 < s.registeredClients.countP
        (fun c => decide (c.address = address ∧ c.port = port))) ∧
    (refreshClient s now address port).registeredClients.map Client.resources
      = s.registeredClients.map Client.resources := by
  have heq := refreshClient_eq s now address port
  refine ⟨?_, ?_, ?_, ?_, ?_⟩
  · intro hnone
    rw [heq]
    have hmap : s.registeredClients.map (refreshed now address port) = s.registeredClients := by
      conv_rhs => rw [← List.map_id s.registeredClients]
      apply List.map_congr_left
      intro c hc
      simp [refreshed, hnone c hc]
    have hcount : s.registeredClients.countP (sameEndpoint address port) = 0 := by
      rw [List.countP_eq_zero]
      intro c hc
      simpa [sameEndpoint] using hnone c hc
    rw [hmap, hcount]
    simp
  · rw [heq]; rfl
  · rw [heq]; rfl
  · rintro ⟨c, hc, hsame⟩
    rw [List.countP_pos_iff]
    exact ⟨c, hc, by simpa using hsame⟩
  · rw [heq]
    simp only [List.map_map]
    apply List.map_congr_left
    intro c _
    simp only [Function.comp, refreshed]
    split <;> rfl

/-- C9 at the registry `[peerA, peerB]`: a heartbeat of 10.0.0.9:5000, which is
not registered, and one of 10.0.0.2:5000, which is. -/
theorem refreshClient_heartbeat_witness :
    (∀ c ∈ [peerA, peerB], ¬ (c.address = "10.0.0.9" ∧ c.port = 5000)) ∧
    refreshClient { registeredClients := [peerA, peerB], outbox := [] } 777 "10.0.0.9" 5000
      = { registeredClients := [peerA, peerB], outbox := [] } ∧
    refreshClient { registeredClients := [peerA, peerB], outbox := [] } 777 "10.0.0.2" 5000
      = { registeredClients := [peerA, { peerB with lastRefresh := 777 }],
          outbox := [⟨Message.REFRESH_RESPONSE, 5000, "10.0.0.2"⟩] } :=
  have hnone : ∀ c ∈ [peerA, peerB], ¬ (c.address = "10.0.0.9" ∧ c.port = 5000) := by decide
  ⟨hnone,
    (refreshClient_heartbeat { registeredClients := [peerA, peerB], outbox := [] } 777
      "10.0.0.9" 5000).1 hnone,
    by decide⟩

/-! ### The transfer -/

theorem readChunks_nil (hwm fuel : Nat) : readChunks hwm fuel [] = [] := by
  cases fuel <;> simp [readChunks]

theorem createReadStream_cons (file : Buffer) (hwm : Nat) (h : file ≠ []) :
    createReadStream file hwm
      = file.take hwm :: readChunks hwm (file.length - 1) (file.drop hwm) := by
  unfold createReadStream
  have hlen : 0 < file.length := List.length_pos.mpr h
  obtain ⟨n, hn⟩ : ∃ n, file.length = n + 1 := ⟨file.length - 1, by omega⟩
  rw [hn, readChunks, if_neg h]
  rfl

theorem createReadStream_small (file : Buffer) (hwm : Nat) (h : file ≠ [])
    (hle : file.length ≤ hwm) : createReadStream file hwm = [file] := by
  rw [createReadStream_cons file hwm h, List.take_of_length_le hle,
    List.drop_eq_nil_of_le hle, readChunks_nil]

theorem packetSize_pos : 0 < packetSize := by decide

theorem streamEmit_sendFile (file : Buffer) (port : Nat) (address : String) (now : Nat)
    (h : file ≠ []) :
    streamEmit (sendFile file port address now)
      = { port := port, address := address
          fileData :=
            { count := 0, total := mathCeilDiv file.length packetSize,
              fileSizeInBytes := file.length }
          currentStatus :=
            { waiting := true,
              msg := some (Message.FILE_SECTION 0 (mathCeilDiv file.length packetSize : Nat)
                (toBase64 (file.take packetSize))) }
          pending := readChunks packetSize (file.length - 1) (file.drop packetSize)
          flowing := false, closed := false, listening := true
          now := now, timers := [now + 10000]
          sent := [⟨Message.FILE_SECTION 0 (mathCeilDiv file.length packetSize : Nat)
            (toBase64 (file.take packetSize)), port, address⟩] } := by
  simp [streamEmit, sendFile, createReadStream_cons file packetSize h, onData, sendCurrent,
    sendStatusMsg, sendMessage]

theorem advance_of_no_timers (ms : Nat) (s : Sender) (h : s.timers = []) :
    advance ms s = { s with now := s.now + ms } := by
  simp [advance, h]

theorem advance_iterate_of_no_timers (ms : Nat) :
    ∀ (n : Nat) (s : Sender), s.timers = [] →
      ((advance ms)^[n] s).timers = [] ∧ ((advance ms)^[n] s).sent = s.sent ∧
      ((advance ms)^[n] s).currentStatus = s.currentStatus ∧
      ((advance ms)^[n] s).fileData = s.fileData := by
  intro n
  induction n with
  | zero => intro s h; exact ⟨h, rfl, rfl, rfl⟩
  | succ n ih =>
    intro s h
    rw [Function.iterate_succ_apply, advance_of_no_timers ms s h]
    exact ih { s with now := s.now + ms } h

theorem fragmentDatagrams_length (total port : Nat) (address : String) :
    ∀ (chunks : List Buffer) (offset : Nat),
      (fragmentDatagrams total port address offset chunks).length = chunks.length := by
  intro chunks
  induction chunks with
  | nil => intro offset; rfl
  | cons c rest ih => intro offset; simp [fragmentDatagrams, ih]

/-- Over a network that delivers every datagram once and in order, the sender
sends one `FILE_SECTION` for each chunk of the stream, numbered from 0. -/
theorem transfer_sent (hashOf : Buffer → String) (file : Buffer) (owner : Resource) (p : Peer)
    (peerAddress : String) (peerPort : Nat) (now : Nat) :
    (transfer hashOf file owner p peerAddress peerPort now).1.sent
      = fragmentDatagrams (mathCeilDiv file.length packetSize) peerPort peerAddress 0
          (createReadStream file packetSize) := by
  have hlen : (createReadStream file packetSize).length = mathCeilDiv file.length packetSize :=
    readChunks_length packetSize packetSize_pos _ _ (Nat.le_refl _)
  have htr : transfer hashOf file owner p peerAddress peerPort now
      = (exchange hashOf owner.address owner.port)^[mathCeilDiv file.length packetSize]
          (sendFile file peerPort peerAddress now, handleResourceRequest p owner) := rfl
  by_cases hfile : file = []
  · subst hfile
    rw [htr]
    simp [mathCeilDiv_zero packetSize packetSize_pos, createReadStream, readChunks, sendFile,
      fragmentDatagrams]
  · have hne : createReadStream file packetSize ≠ [] := by
      rw [createReadStream_cons file packetSize hfile]; simp
    have key := exchange_iterate hashOf owner.address owner.port owner.fileName
      (some owner.hash) p.downloads p.prompts (createReadStream file packetSize) []
      (sendFile file peerPort peerAddress now) (handleResourceRequest p owner) hne
      rfl rfl rfl rfl rfl (by simp [sendFile, hlen]) rfl rfl rfl rfl rfl
    rw [hlen] at key
    rw [htr, key.2.2.2.2.2.2]
    simp [sendFile]

/-- C1: `sendFile` announces `total = ceil(S / 45056)`, the read stream cuts the
file into exactly `total` fragments, each of 1 to 45056 bytes, whose lengths sum
to `S` and which concatenate to the file; when every datagram is delivered once
and in order the sender sends exactly these fragments, numbered from 0; a file
of 10000 bytes gives one fragment, sent with offset 0 and total 1. -/
theorem sendFile_fragments (file : Buffer) (port : Nat) (address : String) (now : Nat) :
    packetSize = 45056 ∧
    (sendFile file port address now).fileData.total
      = ⌈(file.length : ℚ) / (45056 : ℚ)⌉₊ ∧
    (sendFile file port address now).pending.length
      = (sendFile file port address now).fileData.total ∧
    ((sendFile file port address now).pending.map List.length).sum = file.length ∧
    (sendFile file port address now).pending.flatten = file ∧
    (∀ chunk ∈ (sendFile file port address now).pending,
      0 < chunk.length ∧ chunk.length ≤ 45056) ∧
    (∀ (hashOf : Buffer → String) (owner : Resource) (p : Peer),
      (transfer hashOf file owner p address port now).1.sent
        = fragmentDatagrams (sendFile file port address now).fileData.total port address 0
            (sendFile file port address now).pending ∧
      (transfer hashOf file owner p address port now).1.sent.length
        = (sendFile file port address now).fileData.total) ∧
    (file.length = 10000 →
      (sendFile file port address now).fileData.total = 1 ∧
      (sendFile file port address now).pending = [file] ∧
      (streamEmit (sendFile file port address now)).sent
        = [⟨Message.FILE_SECTION 0 1 (toBase64 file), port, address⟩]) := by
  have hp : packetSize = 45056 := by decide
  have hflat : (createReadStream file packetSize).flatten = file :=
    readChunks_flatten packetSize packetSize_pos _ _ (Nat.le_refl _)
  have hlen : (createReadStream file packetSize).length = mathCeilDiv file.length packetSize :=
    readChunks_length packetSize packetSize_pos _ _ (Nat.le_refl _)
  refine ⟨hp, ?_, hlen, ?_, hflat, ?_, ?_, ?_⟩
  · have h := mathCeilDiv_eq_ceil file.length packetSize packetSize_pos
    rw [hp] at h
    simpa [sendFile, hp] using h
  · show ((createReadStream file packetSize).map List.length).sum = file.length
    rw [← List.length_flatten, hflat]
  · intro chunk hc
    have := readChunks_bounds packetSize packetSize_pos _ _ chunk hc
    rw [hp] at this
    exact this
  · intro hashOf owner p
    have hsent := transfer_sent hashOf file owner p address port now
    refine ⟨hsent, ?_⟩
    rw [hsent, fragmentDatagrams_length]
    exact hlen
  · intro h10
    have hne : file ≠ [] := by
      intro h0; rw [h0] at h10; simp at h10
    have hsmall : createReadStream file packetSize = [file] :=
      createReadStream_small file packetSize hne (by rw [h10, hp]; decide)
    have htotal : mathCeilDiv file.length packetSize = 1 := by
      rw [← hlen, hsmall]; rfl
    refine ⟨htotal, hsmall, ?_⟩
    rw [streamEmit_sendFile file port address now hne, htotal,
      List.take_of_length_le (by rw [h10, hp]; decide)]
    rfl

/-- C1 at a file of 10000 zero bytes sent to 10.0.0.2:6000. -/
theorem sendFile_fragments_witness :
    (List.replicate 10000 (0 : Byte)).length = 10000 ∧
    (sendFile (List.replicate 10000 (0 : Byte)) 6000 "10.0.0.2" 0).fileData.total = 1 ∧
    (sendFile (List.replicate 10000 (0 : Byte)) 6000 "10.0.0.2" 0).pending
      = [List.replicate 10000 (0 : Byte)] ∧
    (streamEmit (sendFile (List.replicate 10000 (0 : Byte)) 6000 "10.0.0.2" 0)).sent
      = [⟨Message.FILE_SECTION 0 1 (toBase64 (List.replicate 10000 (0 : Byte))), 6000,
          "10.0.0.2"⟩] :=
  ⟨List.length_replicate 10000 (0 : Byte),
    (sendFile_fragments (List.replicate 10000 (0 : Byte)) 6000 "10.0.0.2" 0).2.2.2.2.2.2.2
      (List.length_replicate 10000 (0 : Byte))⟩

/-- C3: the listener of `received` leaves the sender state as it is when the
offset is not `fileData.count`; the cursor changes only on an offset equal to it
that is not `total - 1`, and then by one; on `total - 1` the cursor stays and the
transfer ends; an acknowledgement of an earlier fragment, and an acknowledgement
delivered a second time, change nothing. -/
theorem onReceived_cursor (s : Sender) (offset : Int) :
    (offset ≠ (s.fileData.count : Int) → onReceived offset s = s) ∧
    ((onReceived offset s).fileData.count ≠ s.fileData.count →
      offset = (s.fileData.count : Int) ∧ offset ≠ (s.fileData.total : Int) - 1 ∧
      (onReceived offset s).fileData.count = s.fileData.count + 1) ∧
    (offset = (s.fileData.count : Int) → offset ≠ (s.fileData.total : Int) - 1 →
      (onReceived offset s).fileData.count = s.fileData.count + 1 ∧
      (onReceived offset s).currentStatus.waiting = false ∧
      (onReceived offset s).flowing = true) ∧
    (offset = (s.fileData.count : Int) → offset = (s.fileData.total : Int) - 1 →
      (onReceived offset s).fileData.count = s.fileData.count ∧
      (onReceived offset s).currentStatus.waiting = false ∧
      (onReceived offset s).closed = true ∧ (onReceived offset s).listening = false) ∧
    (offset < (s.fileData.count : Int) → emitReceived offset s = s) ∧
    emitReceived offset (emitReceived offset s) = emitReceived offset s := by
  refine ⟨?_, ?_, ?_, ?_, ?_, ?_⟩
  · intro h; simp [onReceived, h]
  · intro h
    by_cases h1 : offset = (s.fileData.count : Int)
    · subst h1
      by_cases h2 : (s.fileData.count : Int) = (s.fileData.total : Int) - 1
      · exact absurd (by simp [onReceived, h2]) h
      · exact ⟨rfl, h2, by simp [onReceived, h2]⟩
    · exact absurd (by simp [onReceived, h1]) h
  · intro h1 h2
    subst h1
    simp [onReceived, h2]
  · intro h1 h2
    subst h1
    simp [onReceived, h2]
  · intro h
    have hne : offset ≠ (s.fileData.count : Int) := by omega
    simp [emitReceived, onReceived, hne]
  · unfold emitReceived
    by_cases hl : s.listening = true
    · by_cases h1 : offset = (s.fileData.count : Int)
      · subst h1
        by_cases h2 : (s.fileData.count : Int) = (s.fileData.total : Int) - 1
        · simp [onReceived, hl, h2]
        · simp [onReceived, hl, h2]
      · simp [onReceived, hl, h1]
    · simp [hl]

/-- C3 at `senderAtOne`, whose cursor is 1: the acknowledgement of fragment 0
arrives again, and then the acknowledgement of fragment 1. -/
theorem onReceived_cursor_witness :
    ((0 : Int) ≠ (senderAtOne.fileData.count : Int) ∧ onReceived 0 senderAtOne = senderAtOne) ∧
    ((1 : Int) = (senderAtOne.fileData.count : Int) ∧
      (1 : Int) ≠ (senderAtOne.fileData.total : Int) - 1 ∧
      (onReceived 1 senderAtOne).fileData.count = senderAtOne.fileData.count + 1 ∧
      (onReceived 1 senderAtOne).currentStatus.waiting = false ∧
      (onReceived 1 senderAtOne).flowing = true) :=
  ⟨⟨by decide, (onReceived_cursor senderAtOne 0).1 (by decide)⟩,
    ⟨by decide, by decide,
      (onReceived_cursor senderAtOne 1).2.2.1 (by decide) (by decide)⟩⟩

/-- C10: whatever the offset, the total and the data, and whatever bytes the
base64 decoder of Node gives for the data, `handleFileSection` appends the
decoded data at the end of `requestFile.data`, leaves the earlier elements and
the rest of `requestFile` as they are, and sends one message, a
`FILE_SECTION_RECEIVED` with the received offset, to the endpoint the fragment
came from. -/
theorem handleFileSection_appends_and_acks (hashOf : Buffer → String)
    (bufferFrom : String → Buffer) (p : Peer) (offset total : Int) (data : String)
    (address : String) (port : Nat) :
    (handleFileSection hashOf bufferFrom p offset total data address port).requestFile
      = { p.requestFile with data := p.requestFile.data ++ [bufferFrom data] } ∧
    (handleFileSection hashOf bufferFrom p offset total data address port).sent
      = p.sent ++ [⟨Message.FILE_SECTION_RECEIVED offset, port, address⟩] := by
  unfold handleFileSection
  simp only [sendMessage]
  split
  · split <;> exact ⟨rfl, rfl⟩
  · exact ⟨rfl, rfl⟩

theorem advance_once (s : Sender) (msg : Message) (hw : s.currentStatus.waiting = true)
    (hmsg : s.currentStatus.msg = some msg) (ht : s.timers = [s.now + 10000]) :
    (advance 10000 s).timers = [] ∧
    (advance 10000 s).sent = s.sent ++ [⟨msg, s.port, s.address⟩] ∧
    (advance 10000 s).currentStatus = s.currentStatus ∧
    (advance 10000 s).fileData = s.fileData := by
  simp [advance, ht, timeoutCallback, hw, sendStatusMsg, hmsg, sendMessage]

/-- C4, at `sampleFile` sent to 10.0.0.2:6000 and never acknowledged: the first
timeout resends the fragment and arms no timer, so after two timeouts the
fragment has been resent once, not twice. -/
theorem retransmission_stops_after_one :
    (streamEmit (sendFile sampleFile 6000 "10.0.0.2" 0)).currentStatus.waiting = true ∧
    (streamEmit (sendFile sampleFile 6000 "10.0.0.2" 0)).timers = [10000] ∧
    (advance 10000 (streamEmit (sendFile sampleFile 6000 "10.0.0.2" 0))).timers = [] ∧
    ((advance 10000)^[2] (streamEmit (sendFile sampleFile 6000 "10.0.0.2" 0))).sent
      = [⟨Message.FILE_SECTION 0 1 "AQID", 6000, "10.0.0.2"⟩,
         ⟨Message.FILE_SECTION 0 1 "AQID", 6000, "10.0.0.2"⟩] ∧
    ((advance 10000)^[2] (streamEmit (sendFile sampleFile 6000 "10.0.0.2" 0))).sent.length
      ≠ 1 + 2 := by
  decide

/-- C4 as amended: a timeout callback that finds the fragment unacknowledged
resends the identical message and arms no timer, and it changes neither the
cursor nor the pending message; so the first fragment of a file, when no
acknowledgement arrives, is sent once and resent exactly once, however many
10 s timeouts follow. -/
theorem timeout_resends_without_rearming (file : Buffer) (port : Nat) (address : String)
    (now n : Nat) (hfile : file ≠ []) (hn : 1 ≤ n) :
    (∀ s : Sender,
      (timeoutCallback s).timers = s.timers ∧
      (timeoutCallback s).currentStatus = s.currentStatus ∧
      (timeoutCallback s).fileData = s.fileData ∧
      (∀ msg, s.currentStatus.waiting = true → s.currentStatus.msg = some msg →
        (timeoutCallback s).sent = s.sent ++ [⟨msg, s.port, s.address⟩])) ∧
    (streamEmit (sendFile file port address now)).sent
      = [⟨Message.FILE_SECTION 0 (mathCeilDiv file.length packetSize : Nat)
          (toBase64 (file.take packetSize)), port, address⟩] ∧
    ((advance 10000)^[n] (streamEmit (sendFile file port address now))).sent
      = [⟨Message.FILE_SECTION 0 (mathCeilDiv file.length packetSize : Nat)
          (toBase64 (file.take packetSize)), port, address⟩,
         ⟨Message.FILE_SECTION 0 (mathCeilDiv file.length packetSize : Nat)
          (toBase64 (file.take packetSize)), port, address⟩] ∧
    ((advance 10000)^[n] (streamEmit (sendFile file port address now))).timers = [] ∧
    ((advance 10000)^[n] (streamEmit (sendFile file port address now))).currentStatus
      = (streamEmit (sendFile file port address now)).currentStatus ∧
    ((advance 10000)^[n] (streamEmit (sendFile file port address now))).fileData.count = 0 := by
  refine ⟨?_, ?_⟩
  · intro s
    unfold timeoutCallback
    by_cases hw : s.currentStatus.waiting = true
    · refine ⟨by simp [hw], by simp [hw], by simp [hw], ?_⟩
      intro msg _ hmsg
      simp [hw, sendStatusMsg, hmsg, sendMessage]
    · refine ⟨by simp [hw], by simp [hw], by simp [hw], ?_⟩
      intro msg hw2 _
      exact absurd hw2 hw
  · obtain ⟨m, hm⟩ : ∃ m, n = m + 1 := ⟨n - 1, by omega⟩
    subst hm
    have hs0 := streamEmit_sendFile file port address now hfile
    have hsent : (streamEmit (sendFile file port address now)).sent
        = [⟨Message.FILE_SECTION 0 (mathCeilDiv file.length packetSize : Nat)
            (toBase64 (file.take packetSize)), port, address⟩] := by rw [hs0]
    obtain ⟨a1, a2, a3, a4⟩ := advance_once (streamEmit (sendFile file port address now))
      (Message.FILE_SECTION 0 (mathCeilDiv file.length packetSize : Nat)
        (toBase64 (file.take packetSize)))
      (by rw [hs0]) (by rw [hs0]) (by rw [hs0])
    obtain ⟨h1, h2, h3, h4⟩ := advance_iterate_of_no_timers 10000 m
      (advance 10000 (streamEmit (sendFile file port address now))) a1
    rw [Function.iterate_succ_apply]
    refine ⟨hsent, ?_, h1, by rw [h3, a3], ?_⟩
    · rw [h2, a2, hsent, hs0]; rfl
    · rw [h4, a4, hs0]

/-- C4 as amended, at `sampleFile` and five timeouts. -/
theorem timeout_resends_without_rearming_witness :
    sampleFile ≠ [] ∧ 1 ≤ 5 ∧
    ((advance 10000)^[5] (streamEmit (sendFile sampleFile 6000 "10.0.0.2" 0))).sent
      = [⟨Message.FILE_SECTION 0 (mathCeilDiv sampleFile.length packetSize : Nat)
          (toBase64 (sampleFile.take packetSize)), 6000, "10.0.0.2"⟩,
         ⟨Message.FILE_SECTION 0 (mathCeilDiv sampleFile.length packetSize : Nat)
          (toBase64 (sampleFile.take packetSize)), 6000, "10.0.0.2"⟩] ∧
    ((advance 10000)^[5] (streamEmit (sendFile sampleFile 6000 "10.0.0.2" 0))).timers = [] :=
  ⟨by decide, by decide,
    (timeout_resends_without_rearming sampleFile 6000 "10.0.0.2" 0 5 (by decide)
      (by decide)).2.2.1,
    (timeout_resends_without_rearming sampleFile 6000 "10.0.0.2" 0 5 (by decide)
      (by decide)).2.2.2.1⟩

/-- C2: a non-empty file is requested and sent, every fragment and every
acknowledgement is delivered once and in order, and any time may pass before a
chunk is read and while an acknowledgement travels. The sender ends the
transfer, the receive buffer concatenates to the file, the one file written to
the downloads folder holds exactly the bytes of the source file, so any hash of
the two is the same, and with the advertised hash being that of the file the
download is reported successful. -/
theorem transfer_reassembles (hashOf : Buffer → String) (file : Buffer) (owner : Resource)
    (p : Peer) (peerAddress : String) (peerPort : Nat) (now : Nat) (delay : Nat → Nat × Nat)
    (hfile : file ≠ []) :
    (transferTimed hashOf file owner p peerAddress peerPort now delay).2.requestFile.data.flatten
      = file ∧
    (transferTimed hashOf file owner p peerAddress peerPort now delay).2.downloads
      = p.downloads ++ [(owner.fileName, file)] ∧
    hashOf
        (transferTimed hashOf file owner p peerAddress peerPort now delay).2.requestFile.data.flatten
      = hashOf file ∧
    (owner.hash = hashOf file → owner.hash ≠ "" →
      (transferTimed hashOf file owner p peerAddress peerPort now delay).2.prompts
        = p.prompts ++ ["\nDownload successfull."]) ∧
    (transferTimed hashOf file owner p peerAddress peerPort now delay).1.closed = true ∧
    (transferTimed hashOf file owner p peerAddress peerPort now delay).1.fileData.count + 1
      = (sendFile file peerPort peerAddress now).fileData.total ∧
    (transfer hashOf file owner p peerAddress peerPort now).2.downloads
      = p.downloads ++ [(owner.fileName, file)] := by
  have hflat : (createReadStream file packetSize).flatten = file :=
    readChunks_flatten packetSize packetSize_pos _ _ (Nat.le_refl _)
  have hlen : (createReadStream file packetSize).length = mathCeilDiv file.length packetSize :=
    readChunks_length packetSize packetSize_pos _ _ (Nat.le_refl _)
  have hne : createReadStream file packetSize ≠ [] := by
    rw [createReadStream_cons file packetSize hfile]; simp
  have hmap : (createReadStream file packetSize).map (fun c => fromBase64 (toBase64 c))
      = createReadStream file packetSize := by
    conv_rhs => rw [← List.map_id (createReadStream file packetSize)]
    apply List.map_congr_left
    intro c _
    exact fromBase64_toBase64 c
  have key := runTimed_reassembles hashOf owner.address owner.port delay owner.fileName
    (some owner.hash) p.downloads p.prompts (createReadStream file packetSize) [] 0
    (sendFile file peerPort peerAddress now) (handleResourceRequest p owner) hne
    rfl rfl rfl rfl rfl (by simp [sendFile, hlen]) rfl rfl rfl rfl rfl
  have key2 := exchange_iterate hashOf owner.address owner.port owner.fileName
    (some owner.hash) p.downloads p.prompts (createReadStream file packetSize) []
    (sendFile file peerPort peerAddress now) (handleResourceRequest p owner) hne
    rfl rfl rfl rfl rfl (by simp [sendFile, hlen]) rfl rfl rfl rfl rfl
  rw [hmap, hlen] at key key2
  simp only [List.nil_append, hflat, List.length_nil, Nat.zero_add] at key key2
  obtain ⟨k1, k2, k3, k4, k5⟩ := key
  have htr : transferTimed hashOf file owner p peerAddress peerPort now delay
      = runTimed hashOf owner.address owner.port delay (mathCeilDiv file.length packetSize) 0
          (sendFile file peerPort peerAddress now, handleResourceRequest p owner) := rfl
  have htr2 : transfer hashOf file owner p peerAddress peerPort now
      = (exchange hashOf owner.address owner.port)^[mathCeilDiv file.length packetSize]
          (sendFile file peerPort peerAddress now, handleResourceRequest p owner) := rfl
  rw [htr, htr2]
  refine ⟨by rw [k1, hflat], k2, by rw [k1, hflat], ?_, k4, ?_, key2.2.1⟩
  · intro hh hnonempty
    rw [k3]
    have hne2 : ¬ (hashOf file = "") := by rw [← hh]; exact hnonempty
    simp [downloadPrompt, createFile, hh, hne2]
  · rw [k5]; rfl

/-- C2 at `sampleFile`, offered by 10.0.0.1:5000 and requested by 10.0.0.2:6000,
with 3 s before the chunk is read and 12 s until the acknowledgement arrives. -/
theorem transfer_reassembles_witness :
    sampleFile ≠ [] ∧
    (transferTimed sampleHash sampleFile sampleOwner idlePeer "10.0.0.2" 6000 0
        (fun _ => (3000, 12000))).2.downloads
      = idlePeer.downloads ++ [(sampleOwner.fileName, sampleFile)] :=
  ⟨by decide,
    (transfer_reassembles sampleHash sampleFile sampleOwner idlePeer "10.0.0.2" 6000 0
      (fun _ => (3000, 12000)) (by decide)).2.1⟩

end P2P
